import Mathlib

/-!
Forwarder output plugin: `Sender` (src/plugins/output/forwarder/src/Sender.cpp)

A shallow embedding of `Sender::process_message`, `Sender::lose_message`,
`Sender::process_templates`, `Sender::emit_message`, `Sender::clear_templates`
and `find_drec_after_set`, followed by theorems about them.

Conventions of the embedding

* Addresses (`set_hdr`, `rec.data`) are natural numbers; pointer arithmetic is
  addition.
* `uint32_t` values are natural numbers reduced `% 2^32` where the source
  computes them; `int32_t` and `time_t` values are integers.
* Header fields hold the logical (host order) value: `htonl`/`ntohs` are the
  identity of the embedding.
* A snapshot pointer is a handle compared by equality of handles; the member
  `m_tsnap` is `none` for `nullptr`. The snapshot attached to a decoded data
  record is never null.
* Every call the sender makes on its `Message` member, every `emit_message`
  and every entry into `process_templates` is appended to the log `ops`; the
  packets handed to the emit callback are appended to `emitted`.
-/

namespace Forwarder

/-! ## Data model -/

/-- Size of `fds_ipfix_msg_hdr` (libfds, RFC 7011 message header). -/
def FDS_IPFIX_MSG_HDR_LEN : Nat := 16

/-- Value of `sizeof(fds_ipfix_set_hdr)` (libfds, RFC 7011 set header). -/
def FDS_IPFIX_SET_HDR_LEN : Nat := 4

/-- Identity of a `fds_tsnapshot_t` object (its address). -/
abbrev SnapId := Nat

/-- The message header `fds_ipfix_msg_hdr`. -/
structure MsgHdr where
  version : Nat
  length : Nat
  export_time : Nat
  seq_num : Nat
  odid : Nat
  deriving DecidableEq

/-- A template `fds_template`: the sender reads only `raw.length`; the raw
bytes themselves are identified by `id`. -/
structure Template where
  id : Nat
  raw_length : Nat
  deriving DecidableEq

/-- A set of the decoded message: `ipx_ipfix_set` with the fields of its
`fds_ipfix_set_hdr` that the sender reads. -/
structure IpfixSet where
  ptr : Nat
  flowset_id : Nat
  length : Nat
  deriving DecidableEq

/-- A decoded data record `ipx_ipfix_record`: `rec.data` and `rec.snap`. -/
structure DRec where
  data : Nat
  snap : SnapId
  deriving DecidableEq

/-- The decoded message `ipx_msg_ipfix_t`: its packet header, its data records
and its sets. -/
structure Msg where
  hdr : MsgHdr
  drecs : List DRec
  sets : List IpfixSet
  deriving DecidableEq

/-- Accessor `ipx_msg_ipfix_get_drec_cnt`, a `uint32_t`. -/
def ipx_msg_ipfix_get_drec_cnt (msg : Msg) : Nat :=
  msg.drecs.length % 2 ^ 32

/-- Accessor `ipx_msg_ipfix_get_drec`: the record at `idx`, or null when the
index is not below the record count. -/
def ipx_msg_ipfix_get_drec (msg : Msg) (idx : Nat) : Option DRec :=
  if idx < ipx_msg_ipfix_get_drec_cnt msg then msg.drecs.get? idx else none

/-- What is outside the sender: the templates `tsnapshot_for_each` visits for
each snapshot (in its order), the successive readings of
`get_monotonic_time`, the constant `TMPLTMSG_MAX_LENGTH` and the byte length
of the set written by `add_template_withdrawal_all`. -/
structure Env where
  tsnapshot_for_each : SnapId → List Template
  get_monotonic_time : Nat → Int
  TMPLTMSG_MAX_LENGTH : Nat
  withdrawal_length : Nat

/-! ## The packet builder (`Message` member of the sender) -/

/-- One thing appended to the outgoing packet. -/
inductive Part where
  | set (s : IpfixSet)
  | withdrawal
  | template (t : Template)
  deriving DecidableEq

/-- Modelled from the spec: the class `Message` of the forwarder plugin (the
packet builder, section 4.2) is not among the sources. The in-progress
packet is its header, the parts appended since `start` and the accumulated
byte length. -/
structure Message where
  hdr : MsgHdr
  parts : List Part
  len : Nat
  deriving DecidableEq

/-- Whether a part is a template. -/
def Part.isTemplate : Part → Bool
  | .template _ => true
  | _ => false

/-- Modelled from the spec: `Message::start` copies the header and resets the
accumulated length to the header only. -/
def Message.start (_m : Message) (hdr : MsgHdr) : Message :=
  { hdr := hdr, parts := [], len := FDS_IPFIX_MSG_HDR_LEN }

/-- Modelled from the spec: `Message::add_set` appends the set verbatim and
grows the length by the set's byte length. -/
def Message.add_set (m : Message) (s : IpfixSet) : Message :=
  { m with parts := m.parts ++ [Part.set s], len := m.len + s.length }

/-- Modelled from the spec: whether `Message::add_template` has to open a
template set, which it does unless the last thing appended is a template. -/
def Message.must_open_set (m : Message) : Bool :=
  match m.parts.getLast? with
  | some p => !p.isTemplate
  | none => true

/-- Modelled from the spec: `Message::add_template` appends the template's raw
encoding inside a template set, opening one if necessary. -/
def Message.add_template (m : Message) (t : Template) : Message :=
  { m with
    parts := m.parts ++ [Part.template t],
    len := m.len + (if m.must_open_set then FDS_IPFIX_SET_HDR_LEN else 0) + t.raw_length }

/-- Modelled from the spec: `Message::add_template_withdrawal_all` appends the
set that withdraws all templates. -/
def Message.add_template_withdrawal_all (env : Env) (m : Message) : Message :=
  { m with parts := m.parts ++ [Part.withdrawal], len := m.len + env.withdrawal_length }

/-- Modelled from the spec: `Message::length`, the accumulated byte length
including the header. -/
def Message.length (m : Message) : Nat := m.len

/-- Modelled from the spec: `Message::empty`, true iff no set has been added
since `start`. -/
def Message.empty (m : Message) : Bool := m.parts.isEmpty

/-- Modelled from the spec: `Message::header`, the current header. -/
def Message.header (m : Message) : MsgHdr := m.hdr

/-- Modelled from the spec: `Message::finalize` fixes the total-length field of
the header to the accumulated length. -/
def Message.finalize (m : Message) : Message :=
  { m with hdr := { m.hdr with length := m.len } }

/-! ## The sender -/

/-- An entry of the log of what the sender did. -/
inductive Op where
  | start (hdr : MsgHdr)
  | add_set (s : IpfixSet)
  | add_template_withdrawal_all
  | add_template (t : Template)
  | finalize
  | emit
  | process_templates (tsnap : SnapId) (next_seq_num : Nat)
  deriving DecidableEq

/-- Modelled from the spec: the declaration of the class `Sender` (`Sender.h`)
is not among the sources. The members are those `Sender.cpp` reads and
writes: the configuration (`m_do_withdrawals`, `m_tmplts_resend_pkts`,
`m_tmplts_resend_secs`), the sequence number (a `u32`), the last snapshot
sent, the two resend counters (the spec gives the packet counter no width:
it is a natural number) and the packet builder. To them are added what the
sender has done to the outside: `emitted`, `ops` and the number of clock
readings. -/
structure Sender where
  m_do_withdrawals : Bool
  m_tmplts_resend_pkts : Nat
  m_tmplts_resend_secs : Nat
  m_seq_num : Nat
  m_tsnap : Option SnapId
  m_pkts_since_tmplts_sent : Nat
  m_last_tmplts_sent_time : Int
  m_message : Message
  emitted : List Message
  ops : List Op
  clock_reads : Nat
  deriving DecidableEq

/-- Modelled from the spec: the sender right after construction. The
constructor of `Sender.cpp` sets the callback and the configuration; the
initial values of the other members are in `Sender.h`, which is not among
the sources: sequence number 0, no snapshot sent, counters 0. -/
def Sender.init (do_withdrawals : Bool) (tmplts_resend_pkts tmplts_resend_secs : Nat) : Sender :=
  { m_do_withdrawals := do_withdrawals
    m_tmplts_resend_pkts := tmplts_resend_pkts
    m_tmplts_resend_secs := tmplts_resend_secs
    m_seq_num := 0
    m_tsnap := none
    m_pkts_since_tmplts_sent := 0
    m_last_tmplts_sent_time := 0
    m_message := { hdr := ⟨0, 0, 0, 0, 0⟩, parts := [], len := 0 }
    emitted := []
    ops := []
    clock_reads := 0 }

/-- Call `m_message.start(&hdr)`. -/
def Sender.msg_start (s : Sender) (hdr : MsgHdr) : Sender :=
  { s with m_message := s.m_message.start hdr, ops := s.ops ++ [Op.start hdr] }

/-- Call `m_message.add_set(set_hdr)`. -/
def Sender.msg_add_set (s : Sender) (set : IpfixSet) : Sender :=
  { s with m_message := s.m_message.add_set set, ops := s.ops ++ [Op.add_set set] }

/-- Call `m_message.add_template(tmplt)`. -/
def Sender.msg_add_template (s : Sender) (t : Template) : Sender :=
  { s with m_message := s.m_message.add_template t, ops := s.ops ++ [Op.add_template t] }

/-- Call `m_message.add_template_withdrawal_all()`. -/
def Sender.msg_add_template_withdrawal_all (env : Env) (s : Sender) : Sender :=
  { s with
    m_message := s.m_message.add_template_withdrawal_all env,
    ops := s.ops ++ [Op.add_template_withdrawal_all] }

/-- Call `m_message.finalize()`. -/
def Sender.msg_finalize (s : Sender) : Sender :=
  { s with m_message := s.m_message.finalize, ops := s.ops ++ [Op.finalize] }

/-- Method `Sender::emit_message`: hand the packet to the emit callback. -/
def Sender.emit_message (s : Sender) : Sender :=
  { s with emitted := s.emitted ++ [s.m_message], ops := s.ops ++ [Op.emit] }

/-- Call `get_monotonic_time()`: the next reading of the clock. -/
def Sender.now (env : Env) (s : Sender) : Int :=
  env.get_monotonic_time s.clock_reads

/-- The sender after one reading of the clock. -/
def Sender.tick (s : Sender) : Sender :=
  { s with clock_reads := s.clock_reads + 1 }

/-- Conversion of a `uint32_t` to `int32_t`. -/
def toInt32 (n : Nat) : Int :=
  if n % 2 ^ 32 < 2 ^ 31 then ((n % 2 ^ 32 : Nat) : Int) else ((n % 2 ^ 32 : Nat) : Int) - 2 ^ 32

/-- Conversion of an `int32_t` to `uint32_t`. -/
def toUInt32 (i : Int) : Nat :=
  (i % 2 ^ 32).toNat

/-- The loop of `find_drec_after_set` from index `i` on, `rest` being the
records from `i`. -/
def find_drec_loop (set_end : Nat) (drec_cnt : Nat) : Nat → List DRec → Int
  | _, [] => -1
  | i, drec :: rest =>
    if i < drec_cnt then
      if drec.data > set_end then toInt32 i
      else find_drec_loop set_end drec_cnt (i + 1) rest
    else -1

/-- Function `find_drec_after_set`. -/
def find_drec_after_set (msg : Msg) (set_hdr : IpfixSet) : Int :=
  let drec_cnt := ipx_msg_ipfix_get_drec_cnt msg
  let set_end := set_hdr.ptr + set_hdr.length
  find_drec_loop set_end drec_cnt 0 msg.drecs

/-- The body of the lambda given to `tsnapshot_for_each` in
`process_templates`, for one template. -/
def template_step (env : Env) (next_seq_num : Nat) (s : Sender) (tmplt : Template) : Sender :=
  let s1 :=
    if s.m_message.length + FDS_IPFIX_SET_HDR_LEN + tmplt.raw_length > env.TMPLTMSG_MAX_LENGTH
        ∧ s.m_message.empty = false then
      let s := s.msg_finalize
      let s := s.emit_message
      let msg_hdr := { s.m_message.header with seq_num := next_seq_num }
      s.msg_start msg_hdr
    else s
  s1.msg_add_template tmplt

/-- The part of `process_message` and of `process_templates` that finalizes
and emits the packet if it is not empty. -/
def flush (s : Sender) : Sender :=
  if s.m_message.empty = false then s.msg_finalize.emit_message else s

/-- The first statement of `process_templates`: the entry into the method is
logged, and the withdrawal set is appended if withdrawals are configured. -/
def templates_begin (env : Env) (s : Sender) (tsnap : SnapId) (next_seq_num : Nat) : Sender :=
  let s := { s with ops := s.ops ++ [Op.process_templates tsnap next_seq_num] }
  if s.m_do_withdrawals then s.msg_add_template_withdrawal_all env else s

/-- The call `tsnapshot_for_each(tsnap, ...)` of `process_templates`: the
lambda is run on every template of the snapshot, in the snapshot's order. -/
def templates_each (env : Env) (s : Sender) (tsnap : SnapId) (next_seq_num : Nat) : Sender :=
  (env.tsnapshot_for_each tsnap).foldl (template_step env next_seq_num) s

/-- The end of `process_templates`: the snapshot becomes the last one sent,
the clock is read, the packet counter is reset and a packet with the
sequence number `next_seq_num` is started. -/
def templates_end (env : Env) (s : Sender) (tsnap : SnapId) (next_seq_num : Nat) : Sender :=
  let now := s.now env
  let s := s.tick
  let s := { s with
    m_tsnap := some tsnap,
    m_last_tmplts_sent_time := now,
    m_pkts_since_tmplts_sent := 0 }
  let msg_hdr := { s.m_message.header with seq_num := next_seq_num }
  s.msg_start msg_hdr

/-- Method `Sender::process_templates`. -/
def process_templates (env : Env) (s : Sender) (tsnap : SnapId) (next_seq_num : Nat) : Sender :=
  let s := templates_begin env s tsnap next_seq_num
  let s := templates_each env s tsnap next_seq_num
  let s := flush s
  templates_end env s tsnap next_seq_num

/-- The condition of `process_message` under which the templates are sent
before the sets: the snapshot changed or one of the resend intervals
elapsed. The counters are compared as unsigned numbers; the difference of
the two `time_t` values is a signed number, to which the threshold is
converted. -/
def resend_due (s : Sender) (now : Int) (tsnap : SnapId) : Bool :=
  decide (s.m_tsnap ≠ some tsnap)
    || (s.m_tmplts_resend_pkts != 0
          && decide (s.m_pkts_since_tmplts_sent ≥ s.m_tmplts_resend_pkts))
    || (s.m_tmplts_resend_secs != 0
          && decide (now - s.m_last_tmplts_sent_time ≥ (s.m_tmplts_resend_secs : Int)))

/-- The first part of `process_message`: start the packet with the header of
the message and the current sequence number, read the clock, and send the
templates if the message has a first record and a resend is due. -/
def process_message_begin (env : Env) (s : Sender) (msg : Msg) : Sender :=
  let msg_hdr := { msg.hdr with seq_num := s.m_seq_num }
  let s := s.msg_start msg_hdr
  let now := s.now env
  let s := s.tick
  match ipx_msg_ipfix_get_drec msg 0 with
  | some drec =>
    let tsnap := drec.snap
    if resend_due s now tsnap then process_templates env s tsnap s.m_seq_num else s
  | none => s

/-- The loop of `process_message` over the sets of the message, from the
sets `sets` on. A null record at the found index cannot happen
(`find_drec_after_set_get_drec`); the loop is then left. -/
def process_sets (env : Env) (msg : Msg) : Sender → List IpfixSet → Sender
  | s, [] => s
  | s, set_hdr :: rest =>
    let set_id := set_hdr.flowset_id
    if set_id ≠ 2 ∧ set_id ≠ 3 then
      process_sets env msg (s.msg_add_set set_hdr) rest
    else
      let drec_idx := find_drec_after_set msg set_hdr
      if drec_idx = -1 then s
      else
        match ipx_msg_ipfix_get_drec msg (toUInt32 drec_idx) with
        | none => s
        | some drec =>
          let tsnap := drec.snap
          if s.m_tsnap = some tsnap then process_sets env msg s rest
          else
            let next_seq_num := (s.m_seq_num + toUInt32 drec_idx) % 2 ^ 32
            process_sets env msg (process_templates env s tsnap next_seq_num) rest

/-- Method `Sender::process_message`. -/
def process_message (env : Env) (s : Sender) (msg : Msg) : Sender :=
  let s := process_message_begin env s msg
  let s := process_sets env msg s msg.sets
  let s := flush s
  { s with
    m_seq_num := (s.m_seq_num + ipx_msg_ipfix_get_drec_cnt msg) % 2 ^ 32,
    m_pkts_since_tmplts_sent := s.m_pkts_since_tmplts_sent + 1 }

/-- Method `Sender::lose_message`. -/
def lose_message (s : Sender) (msg : Msg) : Sender :=
  { s with
    m_seq_num := (s.m_seq_num + ipx_msg_ipfix_get_drec_cnt msg) % 2 ^ 32,
    m_pkts_since_tmplts_sent := s.m_pkts_since_tmplts_sent + 1 }

/-- Method `Sender::clear_templates`. -/
def clear_templates (s : Sender) : Sender :=
  { s with m_tsnap := none }

/-- One call of the ingestion loop on the sender. -/
inductive Call where
  | process (msg : Msg)
  | discard (msg : Msg)
  deriving DecidableEq

/-- The message of a call. -/
def Call.msg : Call → Msg
  | .process msg => msg
  | .discard msg => msg

/-- The sender after one call. -/
def Call.apply (env : Env) (s : Sender) : Call → Sender
  | .process msg => process_message env s msg
  | .discard msg => lose_message s msg

/-- The sender after a sequence of calls. -/
def run (env : Env) (s : Sender) (calls : List Call) : Sender :=
  calls.foldl (Call.apply env) s

/-- What no part of `process_message` before its last two statements
changes: the configuration and the sequence number. -/
def Frame (s t : Sender) : Prop :=
  t.m_do_withdrawals = s.m_do_withdrawals ∧
  t.m_tmplts_resend_pkts = s.m_tmplts_resend_pkts ∧
  t.m_tmplts_resend_secs = s.m_tmplts_resend_secs ∧
  t.m_seq_num = s.m_seq_num

/-! ## Concrete inputs used by the examples -/

/-- An environment: snapshot 1 holds templates of raw lengths 90 and 20,
every other snapshot one template of raw length 10; the clock reads 0, 1, 2,
...; the maximum packet length is 100 and the withdrawal set has 8 bytes. -/
def exEnv : Env :=
  { tsnapshot_for_each := fun n => if n = 1 then [⟨256, 90⟩, ⟨257, 20⟩] else [⟨300, 10⟩]
    get_monotonic_time := fun n => n
    TMPLTMSG_MAX_LENGTH := 100
    withdrawal_length := 8 }

/-- A message header. -/
def exHdr : MsgHdr := ⟨10, 0, 0, 77, 5⟩

/-- A message with one data set holding two records of snapshot 1. -/
def exMsgData : Msg :=
  { hdr := exHdr, drecs := [⟨24, 1⟩, ⟨40, 1⟩], sets := [⟨16, 256, 84⟩] }

/-- A message with a data set (one record of snapshot 1), a template set and
a second data set (one record of snapshot 2). -/
def exMsgMixed : Msg :=
  { hdr := exHdr
    drecs := [⟨24, 1⟩, ⟨140, 2⟩]
    sets := [⟨16, 256, 84⟩, ⟨100, 2, 20⟩, ⟨120, 257, 200⟩] }

/-- Whether a log entry is an entry into `process_templates`. -/
def Op.isResend : Op → Bool
  | .process_templates _ _ => true
  | _ => false

/-- How many times the sender has entered `process_templates`. -/
def resend_count (s : Sender) : Nat :=
  s.ops.countP Op.isResend

/-- The log of `t` continues the log of `s`. -/
def Extends (s t : Sender) : Prop :=
  ∃ rest, t.ops = s.ops ++ rest

/-- Whether a log entry is one of `start`, `add_set`, `finalize`, `emit`:
neither a template, nor a withdrawal set, nor an entry into
`process_templates`. -/
def Op.isPlain : Op → Bool
  | .start _ => true
  | .add_set _ => true
  | .finalize => true
  | .emit => true
  | _ => false

/-- From `s` to `t` nothing of a template resend happened: the log grew by
plain entries only, and the packet counter, the last snapshot sent and the
time of the last resend are the same. -/
def Quiet (s t : Sender) : Prop :=
  (∃ rest, t.ops = s.ops ++ rest ∧ ∀ op ∈ rest, op.isPlain = true) ∧
  t.m_pkts_since_tmplts_sent = s.m_pkts_since_tmplts_sent ∧
  t.m_tsnap = s.m_tsnap ∧
  t.m_last_tmplts_sent_time = s.m_last_tmplts_sent_time

/-- From `s` to `t` either nothing of a template resend happened, or
`process_templates` was entered and the packet counter is 0. -/
def QuietOrReset (s t : Sender) : Prop :=
  Quiet s t ∨ (resend_count s < resend_count t ∧ t.m_pkts_since_tmplts_sent = 0)

/-- Where a reading of the log stands with respect to the resend events:
outside of any, right after an entry into `process_templates` that owes its
withdrawal set, or inside a resend event in which no set has been appended
verbatim since the entry. -/
inductive ScanMode where
  | outside
  | expect
  | inside
  deriving DecidableEq

/-- Reading of a log against the withdrawal discipline, `wd` being the
withdrawal option. A withdrawal set is accepted only as the entry right after
an entry into `process_templates`, and only if `wd` is on; if `wd` is on,
every entry into `process_templates` must be followed by one; a template is
accepted only inside a resend event, no verbatim set having been appended
since the entry into it. -/
def wd_scan (wd : Bool) : ScanMode → List Op → Bool
  | .expect, Op.add_template_withdrawal_all :: rest => wd_scan wd .inside rest
  | .expect, _ => false
  | _, [] => true
  | _, Op.process_templates _ _ :: rest => wd_scan wd (if wd then .expect else .inside) rest
  | _, Op.add_template_withdrawal_all :: _ => false
  | .inside, Op.add_template _ :: rest => wd_scan wd .inside rest
  | .outside, Op.add_template _ :: _ => false
  | _, Op.add_set _ :: rest => wd_scan wd .outside rest
  | m, Op.start _ :: rest => wd_scan wd m rest
  | m, Op.finalize :: rest => wd_scan wd m rest
  | m, Op.emit :: rest => wd_scan wd m rest

/-- Whether a log entry is a withdrawal set. -/
def Op.isWithdrawal : Op → Bool
  | .add_template_withdrawal_all => true
  | _ => false

/-- The entries `new` keep the withdrawal discipline wherever they are read
from (outside or inside a resend event) and whatever disciplined log
follows. -/
def Disciplined (wd : Bool) (new : List Op) : Prop :=
  ∀ m, m ≠ ScanMode.expect → ∀ tail,
    (∀ m2, m2 ≠ ScanMode.expect → wd_scan wd m2 tail = true) → wd_scan wd m (new ++ tail) = true

/-- The entries `body` are read through inside a resend event. -/
def TemplatePhase (wd : Bool) (body : List Op) : Prop :=
  ∀ tail, wd_scan wd ScanMode.inside (body ++ tail) = wd_scan wd ScanMode.inside tail

/-- The property the specification states of an emitted packet: its
accumulated length is at most the maximum, or it holds a single template
whose raw length alone exceeds the maximum. -/
def within_max_or_oversized (max : Nat) (p : Message) : Bool :=
  decide (p.len ≤ max) ||
    match p.parts with
    | [Part.template t] => decide (max < t.raw_length)
    | _ => false

/-- The bound the sender keeps on a packet: if the packet holds a template,
its accumulated length is at most the maximum, or that template is all the
packet holds, the length being the two headers plus the raw length of the
template. -/
def pkt_ok (max : Nat) (p : Message) : Prop :=
  (∃ t, Part.template t ∈ p.parts) →
    p.len ≤ max ∨
    ∃ t, p.parts = [Part.template t]
      ∧ p.len = FDS_IPFIX_MSG_HDR_LEN + FDS_IPFIX_SET_HDR_LEN + t.raw_length

/-- From `s` to `t` packets were only added to the emitted ones, each within
the bound `pkt_ok`. -/
def Sized (max : Nat) (s t : Sender) : Prop :=
  ∃ new, t.emitted = s.emitted ++ new ∧ ∀ p ∈ new, pkt_ok max p

/-- The packet in progress has the length of the header when it is empty, and
is within the bound `pkt_ok`. -/
def BuilderOk (max : Nat) (s : Sender) : Prop :=
  (s.m_message.parts = [] → s.m_message.len = FDS_IPFIX_MSG_HDR_LEN) ∧ pkt_ok max s.m_message

/-- The packet in progress has the length of the header when it is empty, and
holds no template. -/
def Clean (s : Sender) : Prop :=
  (s.m_message.parts = [] → s.m_message.len = FDS_IPFIX_MSG_HDR_LEN) ∧
  ∀ t, Part.template t ∉ s.m_message.parts

/-- Whether a set is a data set for the sender: its identifier is neither 2
nor 3. -/
def isDataSet (d : IpfixSet) : Bool :=
  decide (d.flowset_id ≠ 2 ∧ d.flowset_id ≠ 3)

/-- Whether the payload of a record lies inside a set. -/
def in_set (d : IpfixSet) (r : DRec) : Bool :=
  decide (d.ptr < r.data) && decide (r.data < d.ptr + d.length)

/-- The number of data records of the message inside a set. -/
def drecs_in_set (msg : Msg) (d : IpfixSet) : Nat :=
  msg.drecs.countP (in_set d)

/-- The number of data records of the message inside the data sets of a list
of sets. -/
def drecs_in_sets (msg : Msg) : List IpfixSet → Nat
  | [] => 0
  | d :: ds => (if isDataSet d then drecs_in_set msg d else 0) + drecs_in_sets msg ds

/-- The sets appended verbatim among the parts of a packet. -/
def sets_of_parts : List Part → List IpfixSet
  | [] => []
  | Part.set d :: ps => d :: sets_of_parts ps
  | _ :: ps => sets_of_parts ps

/-- The number of data records of the message inside the data sets appended
to a packet. -/
def drecs_in_packet (msg : Msg) (p : Message) : Nat :=
  drecs_in_sets msg (sets_of_parts p.parts)

/-- The number of data records of the message inside the data sets appended
to the packets of a list. -/
def drecs_in_packets (msg : Msg) (ps : List Message) : Nat :=
  (ps.map (drecs_in_packet msg)).sum

/-- Whether each packet of a list carries in its header the sequence number
`n` plus the number of data records inside the data sets of the packets
before it, modulo 2^32. -/
def seq_contiguous (msg : Msg) : Nat → List Message → Bool
  | _, [] => true
  | n, p :: ps =>
    decide (p.hdr.seq_num = n % 2 ^ 32) && seq_contiguous msg (n + drecs_in_packet msg p) ps

/-- The records of the message are ordered by byte offset. -/
def drecs_ordered (msg : Msg) : Prop :=
  msg.drecs.Pairwise (fun a b => a.data ≤ b.data)

/-- Every record of the message lies inside one of the data sets of the
message. -/
def drecs_in_data_sets (msg : Msg) : Prop :=
  ∀ r ∈ msg.drecs, ∃ d ∈ msg.sets, isDataSet d = true ∧ in_set d r = true

/-- The sets of the message are listed as they lie in the packet: each ends
where or before the next begins. -/
def sets_in_layout (msg : Msg) : Prop :=
  msg.sets.Pairwise (fun a b => a.ptr + a.length ≤ b.ptr)

/-- The sequence numbers are contiguous so far: the packets emitted since
`base` are contiguous from `seq0`, the packet in progress carries the
sequence number that continues them, and `K` records lie inside the data
sets appended so far. -/
def SeqInv (msg : Msg) (base : List Message) (seq0 K : Nat) (s : Sender) : Prop :=
  ∃ E, s.emitted = base ++ E ∧ seq_contiguous msg seq0 E = true ∧
    s.m_message.hdr.seq_num = (seq0 + drecs_in_packets msg E) % 2 ^ 32 ∧
    drecs_in_packets msg E + drecs_in_packet msg s.m_message = K

/-- A message without data records: a data set, a template set and another
data set. -/
def exMsgNoRecordsData : Msg :=
  { hdr := exHdr, drecs := [], sets := [⟨16, 256, 30⟩, ⟨46, 2, 20⟩, ⟨66, 257, 10⟩] }

/-- A message with a data set, a template set and a second data set, all of
whose records carry snapshot 1. -/
def exMsgSameSnapshot : Msg :=
  { hdr := exHdr
    drecs := [⟨24, 1⟩, ⟨140, 1⟩]
    sets := [⟨16, 256, 84⟩, ⟨100, 2, 20⟩, ⟨120, 257, 200⟩] }

/-- The parts of the packets of a list, in the order in which they were
appended. -/
def parts_of_packets : List Message → List Part
  | [] => []
  | p :: ps => p.parts ++ parts_of_packets ps

/-- The templates among the parts of a packet. -/
def templates_of_parts : List Part → List Template
  | [] => []
  | Part.template t :: ps => t :: templates_of_parts ps
  | _ :: ps => templates_of_parts ps

/-- The templates of the `add_template` entries of a log. -/
def templates_of_ops : List Op → List Template
  | [] => []
  | Op.add_template t :: ops => t :: templates_of_ops ops
  | _ :: ops => templates_of_ops ops

/-- The parts appended so far: the parts of the packets emitted since `base`
followed by the parts of the packet in progress are `L`. -/
def PartsInv (base : List Message) (L : List Part) (s : Sender) : Prop :=
  ∃ E, s.emitted = base ++ E ∧ parts_of_packets E ++ s.m_message.parts = L

/-- The parts `process_templates` appends for a snapshot: the withdrawal set
if withdrawals are configured, then the templates of the snapshot. -/
def resend_parts (env : Env) (wd : Bool) (tsnap : SnapId) : List Part :=
  (if wd then [Part.withdrawal] else []) ++ (env.tsnapshot_for_each tsnap).map Part.template

/-- Reading of a log against the packets emitted, `pending` telling that the
entry just read is a `finalize`. Every `finalize` must be followed at once by
an `emit`, every `emit` must follow a `finalize`, and the packets handed to
the emit callback, in order, must all be non-empty. -/
def finalize_ok : Bool → List Op → List Message → Bool
  | true, Op.emit :: rest, p :: ps => !p.empty && finalize_ok false rest ps
  | true, _, _ => false
  | false, [], [] => true
  | false, [], _ :: _ => false
  | false, Op.finalize :: rest, E => finalize_ok true rest E
  | false, Op.emit :: _, _ => false
  | false, Op.start _ :: rest, E => finalize_ok false rest E
  | false, Op.add_set _ :: rest, E => finalize_ok false rest E
  | false, Op.add_template_withdrawal_all :: rest, E => finalize_ok false rest E
  | false, Op.add_template _ :: rest, E => finalize_ok false rest E
  | false, Op.process_templates _ _ :: rest, E => finalize_ok false rest E

/-- From `s` to `t` every `finalize` was made on a non-empty packet and
followed at once by the `emit` of that packet. -/
def Flushed (s t : Sender) : Prop :=
  ∃ o E, t.ops = s.ops ++ o ∧ t.emitted = s.emitted ++ E ∧ finalize_ok false o E = true

/-! ## Theorems -/

/-! ### The configuration and the sequence number inside one call -/

theorem Frame.frame_refl (s : Sender) : Frame s s := ⟨rfl, rfl, rfl, rfl⟩

theorem Frame.frame_then {s t u : Sender} (h1 : Frame s t) (h2 : Frame t u) : Frame s u := by
  obtain ⟨a1, a2, a3, a4⟩ := h1
  obtain ⟨b1, b2, b3, b4⟩ := h2
  exact ⟨b1.trans a1, b2.trans a2, b3.trans a3, b4.trans a4⟩

theorem frame_template_step (env : Env) (n : Nat) (s : Sender) (t : Template) :
    Frame s (template_step env n s t) := by
  unfold template_step
  split <;> exact ⟨rfl, rfl, rfl, rfl⟩

theorem frame_templates_each (env : Env) (tsnap : SnapId) (n : Nat) (s : Sender) :
    Frame s (templates_each env s tsnap n) := by
  unfold templates_each
  generalize env.tsnapshot_for_each tsnap = ts
  induction ts generalizing s with
  | nil => exact Frame.frame_refl s
  | cons t ts ih => exact (frame_template_step env n s t).frame_then (ih _)

theorem frame_flush (s : Sender) : Frame s (flush s) := by
  unfold flush
  split <;> exact ⟨rfl, rfl, rfl, rfl⟩

theorem frame_templates_begin (env : Env) (s : Sender) (tsnap : SnapId) (n : Nat) :
    Frame s (templates_begin env s tsnap n) := by
  unfold templates_begin
  dsimp only
  split <;> exact ⟨rfl, rfl, rfl, rfl⟩

theorem frame_templates_end (env : Env) (s : Sender) (tsnap : SnapId) (n : Nat) :
    Frame s (templates_end env s tsnap n) := ⟨rfl, rfl, rfl, rfl⟩

theorem frame_process_templates (env : Env) (s : Sender) (tsnap : SnapId) (n : Nat) :
    Frame s (process_templates env s tsnap n) := by
  unfold process_templates
  exact (((frame_templates_begin env s tsnap n).frame_then (frame_templates_each env tsnap n _)).frame_then
    (frame_flush _)).frame_then (frame_templates_end env _ tsnap n)

theorem frame_process_message_begin (env : Env) (s : Sender) (msg : Msg) :
    Frame s (process_message_begin env s msg) := by
  unfold process_message_begin
  have h0 : Frame s (s.msg_start { msg.hdr with seq_num := s.m_seq_num }).tick :=
    ⟨rfl, rfl, rfl, rfl⟩
  cases ipx_msg_ipfix_get_drec msg 0 with
  | none => exact h0
  | some drec =>
    dsimp only
    split
    · exact h0.frame_then (frame_process_templates env _ _ _)
    · exact h0

theorem frame_process_sets (env : Env) (msg : Msg) (sets : List IpfixSet) (s : Sender) :
    Frame s (process_sets env msg s sets) := by
  induction sets generalizing s with
  | nil => exact Frame.frame_refl s
  | cons set_hdr rest ih =>
    unfold process_sets
    dsimp only
    split
    · exact (show Frame s (s.msg_add_set set_hdr) from ⟨rfl, rfl, rfl, rfl⟩).frame_then (ih _)
    · split
      · exact Frame.frame_refl s
      · split
        · exact Frame.frame_refl s
        · split
          · exact ih _
          · exact (frame_process_templates env s _ _).frame_then (ih _)

/-- The sequence number after `process_message`. -/
theorem process_message_seq_num (env : Env) (s : Sender) (msg : Msg) :
    (process_message env s msg).m_seq_num = (s.m_seq_num + msg.drecs.length) % 2 ^ 32 := by
  have h := ((frame_process_message_begin env s msg).frame_then
    (frame_process_sets env msg msg.sets _)).frame_then (frame_flush _)
  show ((flush _).m_seq_num + ipx_msg_ipfix_get_drec_cnt msg) % 2 ^ 32 = _
  rw [h.2.2.2, ipx_msg_ipfix_get_drec_cnt, Nat.add_mod_mod]

/-- The sequence number after `lose_message`. -/
theorem lose_message_seq_num (s : Sender) (msg : Msg) :
    (lose_message s msg).m_seq_num = (s.m_seq_num + msg.drecs.length) % 2 ^ 32 := by
  show (s.m_seq_num + ipx_msg_ipfix_get_drec_cnt msg) % 2 ^ 32 = _
  rw [ipx_msg_ipfix_get_drec_cnt, Nat.add_mod_mod]

theorem call_apply_seq_num (env : Env) (s : Sender) (c : Call) :
    (c.apply env s).m_seq_num = (s.m_seq_num + c.msg.drecs.length) % 2 ^ 32 := by
  cases c with
  | process msg => exact process_message_seq_num env s msg
  | discard msg => exact lose_message_seq_num s msg

/-- C1. After any finite sequence of `process_message` and `lose_message`
calls from any sender state (the sequence number being a `uint32_t`), the
sequence number is the starting one plus the sum of the data-record counts of
all the messages, modulo 2^32. -/
theorem seq_num_after_run (env : Env) (s : Sender) (calls : List Call)
    (h : s.m_seq_num < 2 ^ 32) :
    (run env s calls).m_seq_num
      = (s.m_seq_num + (calls.map (fun c => c.msg.drecs.length)).sum) % 2 ^ 32 := by
  unfold run
  induction calls generalizing s with
  | nil => simpa using (Nat.mod_eq_of_lt h).symm
  | cons c cs ih =>
    have hc := call_apply_seq_num env s c
    have hlt : (c.apply env s).m_seq_num < 2 ^ 32 := by
      rw [hc]; exact Nat.mod_lt _ (by norm_num)
    rw [List.foldl_cons, ih _ hlt, hc, List.map_cons, List.sum_cons, Nat.mod_add_mod, Nat.add_assoc]

/-- Witness of `seq_num_after_run`: from sequence number 2^32 - 1, a processed
message of two records and a discarded message of two records leave the
sequence number 3. -/
theorem seq_num_after_run_witness :
    ({ Sender.init true 0 0 with m_seq_num := 2 ^ 32 - 1 } : Sender).m_seq_num < 2 ^ 32 ∧
    (run exEnv { Sender.init true 0 0 with m_seq_num := 2 ^ 32 - 1 }
        [Call.process exMsgData, Call.discard exMsgMixed]).m_seq_num
      = (({ Sender.init true 0 0 with m_seq_num := 2 ^ 32 - 1 } : Sender).m_seq_num
          + ([Call.process exMsgData, Call.discard exMsgMixed].map
              (fun c => c.msg.drecs.length)).sum) % 2 ^ 32 :=
  ⟨by decide, seq_num_after_run exEnv _ _ (by decide)⟩

/-- C3. `lose_message` emits no packet and makes no call on the packet
builder, advances the sequence number by the number of data records of the
message modulo 2^32, increments the packet counter by one, and leaves the last
snapshot sent, the time of the last resend, the configuration and the
builder as they were. -/
theorem lose_message_effect (s : Sender) (msg : Msg) :
    (lose_message s msg).emitted = s.emitted ∧
    (lose_message s msg).ops = s.ops ∧
    (lose_message s msg).m_message = s.m_message ∧
    (lose_message s msg).m_seq_num = (s.m_seq_num + msg.drecs.length) % 2 ^ 32 ∧
    (lose_message s msg).m_pkts_since_tmplts_sent = s.m_pkts_since_tmplts_sent + 1 ∧
    (lose_message s msg).m_tsnap = s.m_tsnap ∧
    (lose_message s msg).m_last_tmplts_sent_time = s.m_last_tmplts_sent_time ∧
    (lose_message s msg).clock_reads = s.clock_reads ∧
    (lose_message s msg).m_do_withdrawals = s.m_do_withdrawals ∧
    (lose_message s msg).m_tmplts_resend_pkts = s.m_tmplts_resend_pkts ∧
    (lose_message s msg).m_tmplts_resend_secs = s.m_tmplts_resend_secs :=
  ⟨rfl, rfl, rfl, lose_message_seq_num s msg, rfl, rfl, rfl, rfl, rfl, rfl, rfl⟩

/-! ### The log only grows -/

theorem Extends.ext_refl (s : Sender) : Extends s s := ⟨[], by simp⟩

theorem Extends.ext_then {s t u : Sender} (h1 : Extends s t) (h2 : Extends t u) : Extends s u := by
  obtain ⟨a, ha⟩ := h1
  obtain ⟨b, hb⟩ := h2
  exact ⟨a ++ b, by rw [hb, ha, List.append_assoc]⟩

theorem extends_msg_start (s : Sender) (hdr : MsgHdr) : Extends s (s.msg_start hdr) :=
  ⟨[Op.start hdr], rfl⟩

theorem extends_msg_finalize (s : Sender) : Extends s s.msg_finalize :=
  ⟨[Op.finalize], rfl⟩

theorem extends_emit_message (s : Sender) : Extends s s.emit_message :=
  ⟨[Op.emit], rfl⟩

theorem extends_msg_add_template (s : Sender) (t : Template) :
    Extends s (s.msg_add_template t) :=
  ⟨[Op.add_template t], rfl⟩

theorem extends_msg_add_set (s : Sender) (d : IpfixSet) : Extends s (s.msg_add_set d) :=
  ⟨[Op.add_set d], rfl⟩

theorem extends_template_step (env : Env) (n : Nat) (s : Sender) (t : Template) :
    Extends s (template_step env n s t) := by
  unfold template_step
  dsimp only
  split
  · exact (((extends_msg_finalize s).ext_then (extends_emit_message _)).ext_then
      (extends_msg_start _ _)).ext_then (extends_msg_add_template _ t)
  · exact extends_msg_add_template s t

theorem extends_templates_each (env : Env) (tsnap : SnapId) (n : Nat) (s : Sender) :
    Extends s (templates_each env s tsnap n) := by
  unfold templates_each
  generalize env.tsnapshot_for_each tsnap = ts
  induction ts generalizing s with
  | nil => exact Extends.ext_refl s
  | cons t ts ih => exact (extends_template_step env n s t).ext_then (ih _)

theorem extends_flush (s : Sender) : Extends s (flush s) := by
  unfold flush
  split
  · exact (extends_msg_finalize s).ext_then (extends_emit_message _)
  · exact Extends.ext_refl s

theorem extends_templates_end (env : Env) (s : Sender) (tsnap : SnapId) (n : Nat) :
    Extends s (templates_end env s tsnap n) := ⟨[Op.start _], rfl⟩

theorem templates_begin_ops (env : Env) (s : Sender) (tsnap : SnapId) (n : Nat) :
    (templates_begin env s tsnap n).ops
      = s.ops ++ Op.process_templates tsnap n ::
          (if s.m_do_withdrawals then [Op.add_template_withdrawal_all] else []) := by
  unfold templates_begin
  dsimp only
  cases s.m_do_withdrawals <;> simp [Sender.msg_add_template_withdrawal_all]

/-- The log of `process_templates` starts with the entry into the method. -/
theorem process_templates_ops_head (env : Env) (s : Sender) (tsnap : SnapId) (n : Nat) :
    ∃ rest, (process_templates env s tsnap n).ops = s.ops ++ Op.process_templates tsnap n :: rest := by
  unfold process_templates
  obtain ⟨r, hr⟩ := ((extends_templates_each env tsnap n (templates_begin env s tsnap n)).ext_then
    (extends_flush _)).ext_then (extends_templates_end env _ tsnap n)
  refine ⟨(if s.m_do_withdrawals then [Op.add_template_withdrawal_all] else []) ++ r, ?_⟩
  rw [hr, templates_begin_ops]
  simp

theorem extends_process_templates (env : Env) (s : Sender) (tsnap : SnapId) (n : Nat) :
    Extends s (process_templates env s tsnap n) := by
  obtain ⟨r, hr⟩ := process_templates_ops_head env s tsnap n
  exact ⟨_, hr⟩

theorem extends_process_sets (env : Env) (msg : Msg) (sets : List IpfixSet) (s : Sender) :
    Extends s (process_sets env msg s sets) := by
  induction sets generalizing s with
  | nil => exact Extends.ext_refl s
  | cons set_hdr rest ih =>
    unfold process_sets
    dsimp only
    split
    · exact (extends_msg_add_set s set_hdr).ext_then (ih _)
    · split
      · exact Extends.ext_refl s
      · split
        · exact Extends.ext_refl s
        · split
          · exact ih _
          · exact (extends_process_templates env s _ _).ext_then (ih _)

/-- The log of a whole `process_message` call continues the log at the end of
its first part. -/
theorem extends_process_message_rest (env : Env) (s : Sender) (msg : Msg) :
    Extends (process_message_begin env s msg) (process_message env s msg) := by
  obtain ⟨r, hr⟩ := (extends_process_sets env msg msg.sets (process_message_begin env s msg)).ext_then
    (extends_flush _)
  exact ⟨r, hr⟩

/-- The first part of `process_message` when the message has a first record
and a resend is due. -/
theorem process_message_begin_due (env : Env) (s : Sender) (msg : Msg) (drec : DRec)
    (h : ipx_msg_ipfix_get_drec msg 0 = some drec)
    (hdue : resend_due (s.msg_start { msg.hdr with seq_num := s.m_seq_num }).tick
      (env.get_monotonic_time s.clock_reads) drec.snap = true) :
    process_message_begin env s msg
      = process_templates env (s.msg_start { msg.hdr with seq_num := s.m_seq_num }).tick
          drec.snap s.m_seq_num := by
  unfold process_message_begin
  simp only [h]
  exact if_pos hdue

/-- The first part of `process_message` when the message has a first record
and no resend is due. -/
theorem process_message_begin_not_due (env : Env) (s : Sender) (msg : Msg) (drec : DRec)
    (h : ipx_msg_ipfix_get_drec msg 0 = some drec)
    (hdue : resend_due (s.msg_start { msg.hdr with seq_num := s.m_seq_num }).tick
      (env.get_monotonic_time s.clock_reads) drec.snap = false) :
    process_message_begin env s msg
      = (s.msg_start { msg.hdr with seq_num := s.m_seq_num }).tick := by
  unfold process_message_begin
  simp only [h]
  exact if_neg (by rw [Bool.not_eq_true]; exact hdue)

/-- The log of a `process_message` call whose first part sends the
templates. -/
theorem process_message_ops_of_due (env : Env) (s : Sender) (msg : Msg) (drec : DRec)
    (h : ipx_msg_ipfix_get_drec msg 0 = some drec)
    (hdue : resend_due (s.msg_start { msg.hdr with seq_num := s.m_seq_num }).tick
      (env.get_monotonic_time s.clock_reads) drec.snap = true) :
    ∃ rest, (process_message env s msg).ops
      = s.ops ++ Op.start { msg.hdr with seq_num := s.m_seq_num }
          :: Op.process_templates drec.snap s.m_seq_num :: rest := by
  obtain ⟨r1, hr1⟩ := extends_process_message_rest env s msg
  obtain ⟨r2, hr2⟩ := process_templates_ops_head env
    (s.msg_start { msg.hdr with seq_num := s.m_seq_num }).tick drec.snap s.m_seq_num
  refine ⟨r2 ++ r1, ?_⟩
  rw [hr1, process_message_begin_due env s msg drec h hdue, hr2]
  simp [Sender.tick, Sender.msg_start]

/-! ### When the templates are sent before the sets -/

/-- C5. For every message with a first data record whose snapshot is not the
last snapshot sent (none sent yet, or another one), whatever the two resend
thresholds are, `process_message` starts the packet and then runs
`process_templates` for the snapshot of that record with the current sequence
number, before anything else is appended. -/
theorem process_message_resends_on_change (env : Env) (s : Sender) (msg : Msg) (drec : DRec)
    (h : ipx_msg_ipfix_get_drec msg 0 = some drec)
    (hne : s.m_tsnap ≠ some drec.snap) :
    process_message_begin env s msg
      = process_templates env (s.msg_start { msg.hdr with seq_num := s.m_seq_num }).tick
          drec.snap s.m_seq_num ∧
    ∃ rest, (process_message env s msg).ops
      = s.ops ++ Op.start { msg.hdr with seq_num := s.m_seq_num }
          :: Op.process_templates drec.snap s.m_seq_num :: rest := by
  have hdue : resend_due (s.msg_start { msg.hdr with seq_num := s.m_seq_num }).tick
      (env.get_monotonic_time s.clock_reads) drec.snap = true := by
    simp [resend_due, Sender.msg_start, Sender.tick, hne]
  exact ⟨process_message_begin_due env s msg drec h hdue,
    process_message_ops_of_due env s msg drec h hdue⟩

/-- Witness of `process_message_resends_on_change`: the last snapshot sent is
snapshot 7, the first record of the message has snapshot 1. -/
theorem process_message_resends_on_change_witness :
    ipx_msg_ipfix_get_drec exMsgData 0 = some ⟨24, 1⟩ ∧
    ({ Sender.init false 0 0 with m_tsnap := some 7 } : Sender).m_tsnap ≠ some 1 ∧
    ∃ rest, (process_message exEnv { Sender.init false 0 0 with m_tsnap := some 7 } exMsgData).ops
      = ({ Sender.init false 0 0 with m_tsnap := some 7 } : Sender).ops
          ++ Op.start { exMsgData.hdr with
                seq_num := ({ Sender.init false 0 0 with m_tsnap := some 7 } : Sender).m_seq_num }
          :: Op.process_templates 1
              ({ Sender.init false 0 0 with m_tsnap := some 7 } : Sender).m_seq_num :: rest :=
  ⟨by decide, by decide,
    (process_message_resends_on_change exEnv { Sender.init false 0 0 with m_tsnap := some 7 }
      exMsgData ⟨24, 1⟩ (by decide) (by decide)).2⟩

/-- C7. With a time threshold `T > 0` and a message with a first data record:
if the time read at the start of the call minus the time of the last resend
is at least `T`, `process_message` runs `process_templates` right after
starting the packet; and if that difference is below `T`, the snapshot of the
first record is the last one sent and the packet-count trigger does not fire,
the first part of `process_message` only starts the packet and reads the
clock. -/
theorem process_message_time_threshold (env : Env) (s : Sender) (msg : Msg) (drec : DRec)
    (h : ipx_msg_ipfix_get_drec msg 0 = some drec)
    (hT : 0 < s.m_tmplts_resend_secs) :
    (env.get_monotonic_time s.clock_reads - s.m_last_tmplts_sent_time
          ≥ (s.m_tmplts_resend_secs : Int) →
      process_message_begin env s msg
        = process_templates env (s.msg_start { msg.hdr with seq_num := s.m_seq_num }).tick
            drec.snap s.m_seq_num ∧
      ∃ rest, (process_message env s msg).ops
        = s.ops ++ Op.start { msg.hdr with seq_num := s.m_seq_num }
            :: Op.process_templates drec.snap s.m_seq_num :: rest) ∧
    (env.get_monotonic_time s.clock_reads - s.m_last_tmplts_sent_time
          < (s.m_tmplts_resend_secs : Int) →
      s.m_tsnap = some drec.snap →
      ¬ (s.m_tmplts_resend_pkts ≠ 0 ∧ s.m_pkts_since_tmplts_sent ≥ s.m_tmplts_resend_pkts) →
      process_message_begin env s msg
        = (s.msg_start { msg.hdr with seq_num := s.m_seq_num }).tick ∧
      (process_message_begin env s msg).ops
        = s.ops ++ [Op.start { msg.hdr with seq_num := s.m_seq_num }]) := by
  constructor
  · intro hge
    have hdue : resend_due (s.msg_start { msg.hdr with seq_num := s.m_seq_num }).tick
        (env.get_monotonic_time s.clock_reads) drec.snap = true := by
      have h0 : s.m_tmplts_resend_secs ≠ 0 := Nat.pos_iff_ne_zero.mp hT
      simp [resend_due, Sender.msg_start, Sender.tick, h0, hge]
    exact ⟨process_message_begin_due env s msg drec h hdue,
      process_message_ops_of_due env s msg drec h hdue⟩
  · intro hlt hsnap hpk
    have hdue : resend_due (s.msg_start { msg.hdr with seq_num := s.m_seq_num }).tick
        (env.get_monotonic_time s.clock_reads) drec.snap = false := by
      have hpk2 : s.m_tmplts_resend_pkts = 0
          ∨ s.m_pkts_since_tmplts_sent < s.m_tmplts_resend_pkts := by
        by_cases h0 : s.m_tmplts_resend_pkts = 0
        · exact Or.inl h0
        · exact Or.inr (Nat.lt_of_not_le (fun hle => hpk ⟨h0, hle⟩))
      rcases hpk2 with hz | hlt2
      · simp [resend_due, Sender.msg_start, Sender.tick, hsnap, hz, hlt]
      · simp [resend_due, Sender.msg_start, Sender.tick, hsnap, hlt2, hlt]
    have hb := process_message_begin_not_due env s msg drec h hdue
    exact ⟨hb, by rw [hb]; rfl⟩

/-- Witness of `process_message_time_threshold`: threshold 5, last resend at
time 0; at clock reading 9 the templates are sent, at clock reading 3 they
are not. -/
theorem process_message_time_threshold_witness :
    ipx_msg_ipfix_get_drec exMsgData 0 = some ⟨24, 1⟩ ∧
    0 < ({ Sender.init false 0 5 with m_tsnap := some 1, clock_reads := 9 } : Sender).m_tmplts_resend_secs ∧
    (∃ rest, (process_message exEnv
        { Sender.init false 0 5 with m_tsnap := some 1, clock_reads := 9 } exMsgData).ops
      = Op.start { exMsgData.hdr with seq_num := 0 } :: Op.process_templates 1 0 :: rest) ∧
    (process_message_begin exEnv
        { Sender.init false 0 5 with m_tsnap := some 1, clock_reads := 3 } exMsgData).ops
      = [Op.start { exMsgData.hdr with seq_num := 0 }] :=
  ⟨by decide, by decide,
    ((process_message_time_threshold exEnv
      { Sender.init false 0 5 with m_tsnap := some 1, clock_reads := 9 } exMsgData ⟨24, 1⟩
      (by decide) (by decide)).1 (by decide)).2,
    ((process_message_time_threshold exEnv
      { Sender.init false 0 5 with m_tsnap := some 1, clock_reads := 3 } exMsgData ⟨24, 1⟩
      (by decide) (by decide)).2 (by decide) (by decide) (by decide)).2⟩

/-! ### Steps without a template resend -/

theorem Quiet.quiet_refl (s : Sender) : Quiet s s := ⟨⟨[], by simp, by simp⟩, rfl, rfl, rfl⟩

theorem Quiet.quiet_then {s t u : Sender} (h1 : Quiet s t) (h2 : Quiet t u) : Quiet s u := by
  obtain ⟨⟨a, ha, hpa⟩, a1, a2, a3⟩ := h1
  obtain ⟨⟨b, hb, hpb⟩, b1, b2, b3⟩ := h2
  refine ⟨⟨a ++ b, by rw [hb, ha, List.append_assoc], ?_⟩, b1.trans a1, b2.trans a2, b3.trans a3⟩
  intro op hop
  rcases List.mem_append.mp hop with h | h
  · exact hpa op h
  · exact hpb op h

theorem quiet_msg_start (s : Sender) (hdr : MsgHdr) : Quiet s (s.msg_start hdr) :=
  ⟨⟨[Op.start hdr], rfl, by simp [Op.isPlain]⟩, rfl, rfl, rfl⟩

theorem quiet_tick (s : Sender) : Quiet s s.tick :=
  ⟨⟨[], by simp [Sender.tick], by simp⟩, rfl, rfl, rfl⟩

theorem quiet_msg_add_set (s : Sender) (d : IpfixSet) : Quiet s (s.msg_add_set d) :=
  ⟨⟨[Op.add_set d], rfl, by simp [Op.isPlain]⟩, rfl, rfl, rfl⟩

theorem quiet_flush (s : Sender) : Quiet s (flush s) := by
  unfold flush
  split
  · exact ⟨⟨[Op.finalize, Op.emit], by simp [Sender.emit_message, Sender.msg_finalize],
      by simp [Op.isPlain]⟩, rfl, rfl, rfl⟩
  · exact Quiet.quiet_refl s

theorem isResend_of_isPlain {op : Op} (h : op.isPlain = true) : op.isResend = false := by
  cases op <;> simp_all [Op.isPlain, Op.isResend]

theorem Quiet.resend_count_eq {s t : Sender} (h : Quiet s t) :
    resend_count t = resend_count s := by
  obtain ⟨⟨r, hr, hp⟩, -⟩ := h
  unfold resend_count
  rw [hr, List.countP_append]
  have : List.countP Op.isResend r = 0 := by
    rw [List.countP_eq_zero]
    intro op hop
    simp [isResend_of_isPlain (hp op hop)]
  omega

theorem Extends.resend_count_le {s t : Sender} (h : Extends s t) :
    resend_count s ≤ resend_count t := by
  obtain ⟨r, hr⟩ := h
  unfold resend_count
  rw [hr, List.countP_append]
  omega

/-- After `process_templates` the count of entries into the method is larger,
the packet counter is 0, the snapshot is the last one sent and the time of
the last resend is the clock reading made by the method. -/
theorem process_templates_resets (env : Env) (s : Sender) (tsnap : SnapId) (n : Nat) :
    resend_count s < resend_count (process_templates env s tsnap n) ∧
    (process_templates env s tsnap n).m_pkts_since_tmplts_sent = 0 ∧
    (process_templates env s tsnap n).m_tsnap = some tsnap := by
  refine ⟨?_, rfl, rfl⟩
  obtain ⟨r, hr⟩ := process_templates_ops_head env s tsnap n
  unfold resend_count
  rw [hr, List.countP_append, List.countP_cons]
  simp [Op.isResend]

theorem Quiet.quietOrReset {s t : Sender} (h : Quiet s t) : QuietOrReset s t := Or.inl h

theorem QuietOrReset.reset_then {s t u : Sender} (h1 : QuietOrReset s t) (h2 : QuietOrReset t u) :
    QuietOrReset s u := by
  rcases h1 with q1 | ⟨c1, p1⟩ <;> rcases h2 with q2 | ⟨c2, p2⟩
  · exact Or.inl (q1.quiet_then q2)
  · exact Or.inr ⟨by rw [← q1.resend_count_eq]; exact c2, p2⟩
  · exact Or.inr ⟨by rw [q2.resend_count_eq]; exact c1, by rw [q2.2.1]; exact p1⟩
  · exact Or.inr ⟨Nat.lt_trans c1 c2, p2⟩

theorem quietOrReset_process_templates (env : Env) (s : Sender) (tsnap : SnapId) (n : Nat) :
    QuietOrReset s (process_templates env s tsnap n) :=
  Or.inr ⟨(process_templates_resets env s tsnap n).1, (process_templates_resets env s tsnap n).2.1⟩

theorem quietOrReset_process_message_begin (env : Env) (s : Sender) (msg : Msg) :
    QuietOrReset s (process_message_begin env s msg) := by
  unfold process_message_begin
  have h0 : Quiet s (s.msg_start { msg.hdr with seq_num := s.m_seq_num }).tick :=
    (quiet_msg_start s _).quiet_then (quiet_tick _)
  cases ipx_msg_ipfix_get_drec msg 0 with
  | none => exact Or.inl h0
  | some drec =>
    dsimp only
    split
    · exact h0.quietOrReset.reset_then (quietOrReset_process_templates env _ _ _)
    · exact Or.inl h0

theorem quietOrReset_process_sets (env : Env) (msg : Msg) (sets : List IpfixSet) (s : Sender) :
    QuietOrReset s (process_sets env msg s sets) := by
  induction sets generalizing s with
  | nil => exact Or.inl (Quiet.quiet_refl s)
  | cons set_hdr rest ih =>
    unfold process_sets
    dsimp only
    split
    · exact (quiet_msg_add_set s set_hdr).quietOrReset.reset_then (ih _)
    · split
      · exact Or.inl (Quiet.quiet_refl s)
      · split
        · exact Or.inl (Quiet.quiet_refl s)
        · split
          · exact ih _
          · exact (quietOrReset_process_templates env s _ _).reset_then (ih _)

/-- One `process_message` call either enters `process_templates` and leaves
the packet counter at 1, or does not enter it, adds one to the packet counter
and keeps the last snapshot sent and the time of the last resend. -/
theorem process_message_counter (env : Env) (s : Sender) (msg : Msg) :
    (resend_count (process_message env s msg) = resend_count s ∧
      (process_message env s msg).m_pkts_since_tmplts_sent = s.m_pkts_since_tmplts_sent + 1) ∨
    (resend_count s < resend_count (process_message env s msg) ∧
      (process_message env s msg).m_pkts_since_tmplts_sent = 1) := by
  have h := ((quietOrReset_process_message_begin env s msg).reset_then
    (quietOrReset_process_sets env msg msg.sets _)).reset_then (quiet_flush _).quietOrReset
  rcases h with q | ⟨c, p⟩
  · left
    refine ⟨q.resend_count_eq, ?_⟩
    show (flush _).m_pkts_since_tmplts_sent + 1 = _
    rw [q.2.1]
  · right
    refine ⟨c, ?_⟩
    show (flush _).m_pkts_since_tmplts_sent + 1 = _
    rw [p]

theorem call_apply_counter (env : Env) (s : Sender) (c : Call) :
    (resend_count (c.apply env s) = resend_count s ∧
      (c.apply env s).m_pkts_since_tmplts_sent = s.m_pkts_since_tmplts_sent + 1) ∨
    (resend_count s < resend_count (c.apply env s) ∧
      (c.apply env s).m_pkts_since_tmplts_sent = 1) := by
  cases c with
  | process msg => exact process_message_counter env s msg
  | discard msg => exact Or.inl ⟨rfl, rfl⟩

theorem run_resend_count_le (env : Env) (cs : List Call) (s : Sender) :
    resend_count s ≤ resend_count (run env s cs) := by
  unfold run
  induction cs generalizing s with
  | nil => exact Nat.le_refl _
  | cons c cs ih =>
    rw [List.foldl_cons]
    have h1 : resend_count s ≤ resend_count (c.apply env s) := by
      rcases call_apply_counter env s c with h | h <;> omega
    exact Nat.le_trans h1 (ih _)

/-- A sequence of calls none of which enters `process_templates` adds its
length to the packet counter. -/
theorem run_counter_of_no_resend (env : Env) (cs : List Call) (s : Sender)
    (h : resend_count (run env s cs) = resend_count s) :
    (run env s cs).m_pkts_since_tmplts_sent = s.m_pkts_since_tmplts_sent + cs.length := by
  induction cs generalizing s with
  | nil => rfl
  | cons c cs ih =>
    have hrun : run env s (c :: cs) = run env (c.apply env s) cs := rfl
    rw [hrun] at h ⊢
    have h2 := run_resend_count_le env cs (c.apply env s)
    rcases call_apply_counter env s c with ⟨e, p⟩ | ⟨l, _⟩
    · rw [ih _ (by omega), p, List.length_cons]
      omega
    · omega

theorem call_apply_config (env : Env) (s : Sender) (c : Call) :
    (c.apply env s).m_tmplts_resend_pkts = s.m_tmplts_resend_pkts := by
  cases c with
  | process msg =>
    exact (((frame_process_message_begin env s msg).frame_then
      (frame_process_sets env msg msg.sets _)).frame_then (frame_flush _)).2.1
  | discard msg => rfl

theorem run_config (env : Env) (cs : List Call) (s : Sender) :
    (run env s cs).m_tmplts_resend_pkts = s.m_tmplts_resend_pkts := by
  unfold run
  induction cs generalizing s with
  | nil => rfl
  | cons c cs ih => rw [List.foldl_cons, ih, call_apply_config]

/-- C6. With a packet-count threshold `N > 0`: if a `process_message` call
entered `process_templates`, and the calls `cs` after it (at least `N - 1` of
them) did not, then the next `process_message` call, on a message with a
first data record, runs `process_templates` right after starting the packet.
With `N = 1` and no call in between this is the very next call. -/
theorem process_message_resends_by_count (env : Env) (s0 : Sender) (msg0 : Msg)
    (cs : List Call) (msg : Msg) (drec : DRec)
    (hN : 0 < s0.m_tmplts_resend_pkts)
    (hres : resend_count s0 < resend_count (process_message env s0 msg0))
    (hno : resend_count (run env (process_message env s0 msg0) cs)
      = resend_count (process_message env s0 msg0))
    (hlen : s0.m_tmplts_resend_pkts ≤ cs.length + 1)
    (h : ipx_msg_ipfix_get_drec msg 0 = some drec) :
    process_message_begin env (run env (process_message env s0 msg0) cs) msg
      = process_templates env
          ((run env (process_message env s0 msg0) cs).msg_start
            { msg.hdr with seq_num := (run env (process_message env s0 msg0) cs).m_seq_num }).tick
          drec.snap (run env (process_message env s0 msg0) cs).m_seq_num ∧
    ∃ rest, (process_message env (run env (process_message env s0 msg0) cs) msg).ops
      = (run env (process_message env s0 msg0) cs).ops
          ++ Op.start { msg.hdr with
                seq_num := (run env (process_message env s0 msg0) cs).m_seq_num }
          :: Op.process_templates drec.snap
              (run env (process_message env s0 msg0) cs).m_seq_num :: rest := by
  have h1 : (process_message env s0 msg0).m_pkts_since_tmplts_sent = 1 := by
    rcases process_message_counter env s0 msg0 with ⟨e, _⟩ | ⟨_, p⟩
    · omega
    · exact p
  have hp := run_counter_of_no_resend env cs _ hno
  have hc : (run env (process_message env s0 msg0) cs).m_tmplts_resend_pkts
      = s0.m_tmplts_resend_pkts := by
    rw [run_config]
    exact call_apply_config env s0 (Call.process msg0)
  have hdue : resend_due
      ((run env (process_message env s0 msg0) cs).msg_start
        { msg.hdr with seq_num := (run env (process_message env s0 msg0) cs).m_seq_num }).tick
      (env.get_monotonic_time (run env (process_message env s0 msg0) cs).clock_reads)
      drec.snap = true := by
    have hne : (run env (process_message env s0 msg0) cs).m_tmplts_resend_pkts ≠ 0 := by
      rw [hc]; omega
    have hge : (run env (process_message env s0 msg0) cs).m_tmplts_resend_pkts
        ≤ (run env (process_message env s0 msg0) cs).m_pkts_since_tmplts_sent := by
      rw [hc, hp, h1]; omega
    simp [resend_due, Sender.msg_start, Sender.tick, hne, hge]
  exact ⟨process_message_begin_due env _ msg drec h hdue,
    process_message_ops_of_due env _ msg drec h hdue⟩

/-- Witness of `process_message_resends_by_count`: with threshold 2 the second
call after the resending one resends, and with threshold 1 the very next call
does. -/
theorem process_message_resends_by_count_witness :
    (0 < (Sender.init false 2 0).m_tmplts_resend_pkts ∧
      resend_count (Sender.init false 2 0)
        < resend_count (process_message exEnv (Sender.init false 2 0) exMsgData) ∧
      resend_count (run exEnv (process_message exEnv (Sender.init false 2 0) exMsgData)
          [Call.process exMsgData])
        = resend_count (process_message exEnv (Sender.init false 2 0) exMsgData) ∧
      ∃ rest, (process_message exEnv
          (run exEnv (process_message exEnv (Sender.init false 2 0) exMsgData)
            [Call.process exMsgData]) exMsgData).ops
        = (run exEnv (process_message exEnv (Sender.init false 2 0) exMsgData)
            [Call.process exMsgData]).ops
          ++ Op.start { exMsgData.hdr with seq_num := 4 } :: Op.process_templates 1 4 :: rest) ∧
    (∃ rest, (process_message exEnv
          (run exEnv (process_message exEnv (Sender.init false 1 0) exMsgData) []) exMsgData).ops
        = (run exEnv (process_message exEnv (Sender.init false 1 0) exMsgData) []).ops
          ++ Op.start { exMsgData.hdr with seq_num := 2 } :: Op.process_templates 1 2 :: rest) :=
  ⟨⟨by decide, by decide, by decide,
      (process_message_resends_by_count exEnv (Sender.init false 2 0) exMsgData
        [Call.process exMsgData] exMsgData ⟨24, 1⟩
        (by decide) (by decide) (by decide) (by decide) (by decide)).2⟩,
    (process_message_resends_by_count exEnv (Sender.init false 1 0) exMsgData
        [] exMsgData ⟨24, 1⟩
        (by decide) (by decide) (by decide) (by decide) (by decide)).2⟩

/-! ### Both resend intervals disabled -/

theorem ipx_msg_ipfix_get_drec_mem {msg : Msg} {idx : Nat} {drec : DRec}
    (h : ipx_msg_ipfix_get_drec msg idx = some drec) : drec ∈ msg.drecs := by
  unfold ipx_msg_ipfix_get_drec at h
  split at h
  · exact List.get?_mem h
  · exact absurd h (by simp)

/-- The loop over the sets enters `process_templates` for no set when every
record of the message carries the last snapshot sent. -/
theorem quiet_process_sets_of_same_snapshot (env : Env) (msg : Msg) (sets : List IpfixSet)
    (s : Sender) (hall : ∀ r ∈ msg.drecs, s.m_tsnap = some r.snap) :
    Quiet s (process_sets env msg s sets) := by
  induction sets generalizing s with
  | nil => exact Quiet.quiet_refl s
  | cons set_hdr rest ih =>
    unfold process_sets
    dsimp only
    split
    · exact (quiet_msg_add_set s set_hdr).quiet_then (ih _ hall)
    · split
      · exact Quiet.quiet_refl s
      · split
        · exact Quiet.quiet_refl s
        · rename_i drec hdrec
          split
          · exact ih _ hall
          · rename_i hne
            exact absurd (hall drec (ipx_msg_ipfix_get_drec_mem hdrec)) hne

/-- The first part of `process_message` sends no templates when both
thresholds are 0 and every record of the message carries the last snapshot
sent. -/
theorem quiet_process_message_begin_of_disabled (env : Env) (s : Sender) (msg : Msg)
    (hp : s.m_tmplts_resend_pkts = 0) (ht : s.m_tmplts_resend_secs = 0)
    (hall : ∀ r ∈ msg.drecs, s.m_tsnap = some r.snap) :
    Quiet s (process_message_begin env s msg) := by
  have h0 : Quiet s (s.msg_start { msg.hdr with seq_num := s.m_seq_num }).tick :=
    (quiet_msg_start s _).quiet_then (quiet_tick _)
  cases hd : ipx_msg_ipfix_get_drec msg 0 with
  | none =>
    unfold process_message_begin
    simp only [hd]
    exact h0
  | some drec =>
    have hdue : resend_due (s.msg_start { msg.hdr with seq_num := s.m_seq_num }).tick
        (env.get_monotonic_time s.clock_reads) drec.snap = false := by
      simp [resend_due, Sender.msg_start, Sender.tick, hp, ht,
        hall drec (ipx_msg_ipfix_get_drec_mem hd)]
    rw [process_message_begin_not_due env s msg drec hd hdue]
    exact h0

/-- C8. With both thresholds 0, for every state, every clock and every
message all of whose data records carry the last snapshot sent,
`process_message` performs no resend: what it adds to the log are only
`start`, `add_set`, `finalize` and `emit` entries (no template, no withdrawal
set, no entry into `process_templates`), the last snapshot sent and the time
of the last resend are unchanged, and the packet counter grows by one. -/
theorem process_message_no_resend_when_disabled (env : Env) (s : Sender) (msg : Msg)
    (hp : s.m_tmplts_resend_pkts = 0) (ht : s.m_tmplts_resend_secs = 0)
    (hall : ∀ r ∈ msg.drecs, s.m_tsnap = some r.snap) :
    (∃ rest, (process_message env s msg).ops = s.ops ++ rest
      ∧ ∀ op ∈ rest, op.isPlain = true) ∧
    resend_count (process_message env s msg) = resend_count s ∧
    (process_message env s msg).m_tsnap = s.m_tsnap ∧
    (process_message env s msg).m_last_tmplts_sent_time = s.m_last_tmplts_sent_time ∧
    (process_message env s msg).m_pkts_since_tmplts_sent = s.m_pkts_since_tmplts_sent + 1 := by
  have hb := quiet_process_message_begin_of_disabled env s msg hp ht hall
  have hall2 : ∀ r ∈ msg.drecs, (process_message_begin env s msg).m_tsnap = some r.snap := by
    intro r hr
    rw [hb.2.2.1]
    exact hall r hr
  have hq : Quiet s (flush (process_sets env msg (process_message_begin env s msg) msg.sets)) :=
    (hb.quiet_then (quiet_process_sets_of_same_snapshot env msg msg.sets _ hall2)).quiet_then
      (quiet_flush _)
  refine ⟨hq.1, hq.resend_count_eq, hq.2.2.1, hq.2.2.2, ?_⟩
  show (flush _).m_pkts_since_tmplts_sent + 1 = _
  rw [hq.2.1]

/-- Witness of `process_message_no_resend_when_disabled`: the packet counter
is 1000 and the clock is 5000 past the last resend. -/
theorem process_message_no_resend_when_disabled_witness :
    ({ Sender.init true 0 0 with
        m_tsnap := some 1, m_pkts_since_tmplts_sent := 1000, clock_reads := 5000 }
      : Sender).m_tmplts_resend_pkts = 0 ∧
    ({ Sender.init true 0 0 with
        m_tsnap := some 1, m_pkts_since_tmplts_sent := 1000, clock_reads := 5000 }
      : Sender).m_tmplts_resend_secs = 0 ∧
    (∀ r ∈ exMsgData.drecs, ({ Sender.init true 0 0 with
        m_tsnap := some 1, m_pkts_since_tmplts_sent := 1000, clock_reads := 5000 }
      : Sender).m_tsnap = some r.snap) ∧
    (process_message exEnv { Sender.init true 0 0 with
        m_tsnap := some 1, m_pkts_since_tmplts_sent := 1000, clock_reads := 5000 }
      exMsgData).m_pkts_since_tmplts_sent = 1000 + 1 :=
  ⟨by decide, by decide, by decide,
    (process_message_no_resend_when_disabled exEnv { Sender.init true 0 0 with
        m_tsnap := some 1, m_pkts_since_tmplts_sent := 1000, clock_reads := 5000 }
      exMsgData (by decide) (by decide) (by decide)).2.2.2.2⟩

/-! ### The withdrawal set of a resend event -/

theorem templatePhase_nil (wd : Bool) : TemplatePhase wd [] := fun _ => rfl

theorem TemplatePhase.phase_append {wd : Bool} {a b : List Op} (ha : TemplatePhase wd a)
    (hb : TemplatePhase wd b) : TemplatePhase wd (a ++ b) := by
  intro tail
  rw [List.append_assoc, ha, hb]

theorem templatePhase_start (wd : Bool) (hdr : MsgHdr) : TemplatePhase wd [Op.start hdr] :=
  fun _ => rfl

theorem templatePhase_finalize (wd : Bool) : TemplatePhase wd [Op.finalize] := fun _ => rfl

theorem templatePhase_emit (wd : Bool) : TemplatePhase wd [Op.emit] := fun _ => rfl

theorem templatePhase_add_template (wd : Bool) (t : Template) :
    TemplatePhase wd [Op.add_template t] := fun _ => rfl

theorem disciplined_nil (wd : Bool) : Disciplined wd [] := fun m hm _ htail => htail m hm

theorem Disciplined.disc_append {wd : Bool} {a b : List Op} (ha : Disciplined wd a)
    (hb : Disciplined wd b) : Disciplined wd (a ++ b) := by
  intro m hm tail htail
  rw [List.append_assoc]
  exact ha m hm _ (fun m2 hm2 => hb m2 hm2 tail htail)

theorem disciplined_start (wd : Bool) (hdr : MsgHdr) : Disciplined wd [Op.start hdr] := by
  intro m hm tail htail
  cases m with
  | expect => exact absurd rfl hm
  | outside => exact htail _ (by decide)
  | inside => exact htail _ (by decide)

theorem disciplined_finalize (wd : Bool) : Disciplined wd [Op.finalize] := by
  intro m hm tail htail
  cases m with
  | expect => exact absurd rfl hm
  | outside => exact htail _ (by decide)
  | inside => exact htail _ (by decide)

theorem disciplined_emit (wd : Bool) : Disciplined wd [Op.emit] := by
  intro m hm tail htail
  cases m with
  | expect => exact absurd rfl hm
  | outside => exact htail _ (by decide)
  | inside => exact htail _ (by decide)

theorem disciplined_add_set (wd : Bool) (d : IpfixSet) : Disciplined wd [Op.add_set d] := by
  intro m hm tail htail
  cases m with
  | expect => exact absurd rfl hm
  | outside => exact htail ScanMode.outside (by decide)
  | inside => exact htail ScanMode.outside (by decide)

/-- A resend event: the entry into `process_templates`, the withdrawal set if
the option is on, then entries read through inside the event. -/
theorem disciplined_resend (wd : Bool) (tsnap : SnapId) (n : Nat) (body : List Op)
    (hbody : TemplatePhase wd body) :
    Disciplined wd (Op.process_templates tsnap n ::
      ((if wd then [Op.add_template_withdrawal_all] else []) ++ body)) := by
  intro m hm tail htail
  have hin : wd_scan wd ScanMode.inside (body ++ tail) = true := by
    rw [hbody]; exact htail _ (by decide)
  cases wd <;> cases m <;> first | exact absurd rfl hm | simpa [wd_scan] using hin

/-- What one run of the lambda of `process_templates` adds to the log is read
through inside a resend event. -/
theorem template_step_ops (env : Env) (wd : Bool) (n : Nat) (s : Sender) (t : Template) :
    ∃ body, (template_step env n s t).ops = s.ops ++ body ∧ TemplatePhase wd body := by
  unfold template_step
  dsimp only
  split
  · refine ⟨[Op.finalize] ++ [Op.emit]
      ++ [Op.start { s.msg_finalize.emit_message.m_message.header with seq_num := n }]
      ++ [Op.add_template t], ?_, ?_⟩
    · simp [Sender.msg_add_template, Sender.msg_start, Sender.emit_message, Sender.msg_finalize]
    · exact (((templatePhase_finalize wd).phase_append (templatePhase_emit wd)).phase_append
        (templatePhase_start wd _)).phase_append (templatePhase_add_template wd t)
  · exact ⟨[Op.add_template t], rfl, templatePhase_add_template wd t⟩

theorem templates_each_ops (env : Env) (wd : Bool) (tsnap : SnapId) (n : Nat) (s : Sender) :
    ∃ body, (templates_each env s tsnap n).ops = s.ops ++ body ∧ TemplatePhase wd body := by
  unfold templates_each
  generalize env.tsnapshot_for_each tsnap = ts
  induction ts generalizing s with
  | nil => exact ⟨[], by simp, templatePhase_nil wd⟩
  | cons t ts ih =>
    obtain ⟨b1, h1, p1⟩ := template_step_ops env wd n s t
    obtain ⟨b2, h2, p2⟩ := ih (template_step env n s t)
    exact ⟨b1 ++ b2, by rw [List.foldl_cons, h2, h1, List.append_assoc], p1.phase_append p2⟩

theorem flush_ops (wd : Bool) (s : Sender) :
    ∃ body, (flush s).ops = s.ops ++ body ∧ TemplatePhase wd body ∧ Disciplined wd body := by
  unfold flush
  split
  · exact ⟨[Op.finalize] ++ [Op.emit],
      by simp [Sender.emit_message, Sender.msg_finalize],
      (templatePhase_finalize wd).phase_append (templatePhase_emit wd),
      (disciplined_finalize wd).disc_append (disciplined_emit wd)⟩
  · exact ⟨[], by simp, templatePhase_nil wd, disciplined_nil wd⟩

theorem templates_end_ops (env : Env) (s : Sender) (tsnap : SnapId) (n : Nat) :
    (templates_end env s tsnap n).ops
      = s.ops ++ [Op.start { s.m_message.header with seq_num := n }] := rfl

/-- What `process_templates` adds to the log is one resend event. -/
theorem process_templates_ops (env : Env) (s : Sender) (tsnap : SnapId) (n : Nat) :
    ∃ new, (process_templates env s tsnap n).ops = s.ops ++ new
      ∧ Disciplined s.m_do_withdrawals new := by
  obtain ⟨b1, h1, p1⟩ := templates_each_ops env s.m_do_withdrawals tsnap n
    (templates_begin env s tsnap n)
  obtain ⟨b2, h2, p2, -⟩ := flush_ops s.m_do_withdrawals
    (templates_each env (templates_begin env s tsnap n) tsnap n)
  refine ⟨Op.process_templates tsnap n ::
      ((if s.m_do_withdrawals then [Op.add_template_withdrawal_all] else [])
        ++ (b1 ++ b2 ++ [Op.start
              { (flush (templates_each env (templates_begin env s tsnap n) tsnap n)).m_message.header
                with seq_num := n }])), ?_, ?_⟩
  · show (templates_end env _ tsnap n).ops = _
    rw [templates_end_ops, h2, h1, templates_begin_ops]
    simp
  · exact disciplined_resend _ tsnap n _ ((p1.phase_append p2).phase_append (templatePhase_start _ _))

theorem process_sets_ops (env : Env) (msg : Msg) (sets : List IpfixSet) (s : Sender) :
    ∃ new, (process_sets env msg s sets).ops = s.ops ++ new
      ∧ Disciplined s.m_do_withdrawals new := by
  induction sets generalizing s with
  | nil => exact ⟨[], by simp [process_sets], disciplined_nil _⟩
  | cons set_hdr rest ih =>
    unfold process_sets
    dsimp only
    split
    · obtain ⟨b, hb, pb⟩ := ih (s.msg_add_set set_hdr)
      exact ⟨[Op.add_set set_hdr] ++ b, by rw [hb]; simp [Sender.msg_add_set],
        (disciplined_add_set _ set_hdr).disc_append pb⟩
    · split
      · exact ⟨[], by simp, disciplined_nil _⟩
      · split
        · exact ⟨[], by simp, disciplined_nil _⟩
        · split
          · exact ih s
          · rename_i drec _ _
            obtain ⟨a, ha, pa⟩ := process_templates_ops env s drec.snap
              ((s.m_seq_num + toUInt32 (find_drec_after_set msg set_hdr)) % 2 ^ 32)
            obtain ⟨b, hb, pb⟩ := ih (process_templates env s drec.snap
              ((s.m_seq_num + toUInt32 (find_drec_after_set msg set_hdr)) % 2 ^ 32))
            rw [(frame_process_templates env s _ _).1] at pb
            exact ⟨a ++ b, by rw [hb, ha, List.append_assoc], pa.disc_append pb⟩

theorem process_message_begin_ops (env : Env) (s : Sender) (msg : Msg) :
    ∃ new, (process_message_begin env s msg).ops = s.ops ++ new
      ∧ Disciplined s.m_do_withdrawals new := by
  unfold process_message_begin
  cases ipx_msg_ipfix_get_drec msg 0 with
  | none => exact ⟨[Op.start _], rfl, disciplined_start _ _⟩
  | some drec =>
    dsimp only
    split
    · obtain ⟨a, ha, pa⟩ := process_templates_ops env
        (s.msg_start { msg.hdr with seq_num := s.m_seq_num }).tick drec.snap s.m_seq_num
      have ha2 : (process_templates env
          (s.msg_start { msg.hdr with seq_num := s.m_seq_num }).tick drec.snap s.m_seq_num).ops
          = s.ops ++ ([Op.start { msg.hdr with seq_num := s.m_seq_num }] ++ a) := by
        rw [ha]; simp [Sender.tick, Sender.msg_start]
      exact ⟨[Op.start { msg.hdr with seq_num := s.m_seq_num }] ++ a, ha2,
        (disciplined_start _ _).disc_append pa⟩
    · exact ⟨[Op.start _], rfl, disciplined_start _ _⟩

/-- In a log that keeps the withdrawal discipline the withdrawal sets are as
many as the entries into `process_templates` if the option is on, and none
if it is off (one more in both cases if the reading starts owing one). -/
theorem wd_scan_count (wd : Bool) (l : List Op) (m : ScanMode)
    (h : wd_scan wd m l = true) :
    l.countP Op.isWithdrawal
      = (if wd then l.countP Op.isResend else 0) + (if m = ScanMode.expect then 1 else 0) := by
  induction l generalizing m with
  | nil => cases m <;> simp_all [wd_scan]
  | cons op rest ih =>
    cases op with
    | start hdr =>
      cases m <;> simp only [wd_scan] at h
      · simpa [Op.isWithdrawal, Op.isResend] using ih _ h
      · exact absurd h (by simp)
      · simpa [Op.isWithdrawal, Op.isResend] using ih _ h
    | add_set d =>
      cases m <;> simp only [wd_scan] at h
      · simpa [Op.isWithdrawal, Op.isResend] using ih _ h
      · exact absurd h (by simp)
      · simpa [Op.isWithdrawal, Op.isResend] using ih _ h
    | add_template_withdrawal_all =>
      cases m <;> simp only [wd_scan] at h
      · exact absurd h (by simp)
      · simpa [Op.isWithdrawal, Op.isResend, Nat.add_comm] using ih _ h
      · exact absurd h (by simp)
    | add_template t =>
      cases m <;> simp only [wd_scan] at h
      · exact absurd h (by simp)
      · exact absurd h (by simp)
      · simpa [Op.isWithdrawal, Op.isResend] using ih _ h
    | finalize =>
      cases m <;> simp only [wd_scan] at h
      · simpa [Op.isWithdrawal, Op.isResend] using ih _ h
      · exact absurd h (by simp)
      · simpa [Op.isWithdrawal, Op.isResend] using ih _ h
    | emit =>
      cases m <;> simp only [wd_scan] at h
      · simpa [Op.isWithdrawal, Op.isResend] using ih _ h
      · exact absurd h (by simp)
      · simpa [Op.isWithdrawal, Op.isResend] using ih _ h
    | process_templates tsnap n =>
      cases m <;> simp only [wd_scan] at h
      · have := ih _ h
        cases wd <;> simp_all [Op.isWithdrawal, Op.isResend]
      · exact absurd h (by simp)
      · have := ih _ h
        cases wd <;> simp_all [Op.isWithdrawal, Op.isResend]

/-- C10. What a `process_message` call adds to the log keeps the withdrawal
discipline of `wd_scan` for the configured withdrawal option: a withdrawal
set is appended only as the first thing after an entry into
`process_templates` and only if the option is on, every such entry is
followed by exactly one if the option is on, and the templates come after it
in the same resend event with no verbatim set in between. Hence the
withdrawal sets appended are as many as the resend events if the option is
on, and none if it is off. -/
theorem process_message_withdrawals (env : Env) (s : Sender) (msg : Msg) :
    ∃ new, (process_message env s msg).ops = s.ops ++ new
      ∧ wd_scan s.m_do_withdrawals ScanMode.outside new = true
      ∧ new.countP Op.isWithdrawal
          = if s.m_do_withdrawals then new.countP Op.isResend else 0 := by
  obtain ⟨a, ha, pa⟩ := process_message_begin_ops env s msg
  obtain ⟨b, hb, pb⟩ := process_sets_ops env msg msg.sets (process_message_begin env s msg)
  obtain ⟨c, hc, -, pc⟩ := flush_ops s.m_do_withdrawals
    (process_sets env msg (process_message_begin env s msg) msg.sets)
  rw [(frame_process_message_begin env s msg).1] at pb
  have hscan : wd_scan s.m_do_withdrawals ScanMode.outside (a ++ b ++ c) = true := by
    have := ((pa.disc_append pb).disc_append pc) ScanMode.outside (by decide) []
      (fun m2 hm2 => by cases m2 <;> first | rfl | exact absurd rfl hm2)
    simpa using this
  refine ⟨a ++ b ++ c, ?_, hscan, ?_⟩
  · show (flush _).ops = _
    rw [hc, hb, ha]
    simp
  · simpa using wd_scan_count _ _ _ hscan

/-! ### The length of the emitted packets -/

theorem sized_refl (max : Nat) (s : Sender) : Sized max s s := ⟨[], by simp, by simp⟩

theorem Sized.sized_then {max : Nat} {s t u : Sender} (h1 : Sized max s t) (h2 : Sized max t u) :
    Sized max s u := by
  obtain ⟨a, ha, pa⟩ := h1
  obtain ⟨b, hb, pb⟩ := h2
  refine ⟨a ++ b, by rw [hb, ha, List.append_assoc], ?_⟩
  intro p hp
  rcases List.mem_append.mp hp with h | h
  · exact pa p h
  · exact pb p h

theorem Clean.builderOk {s : Sender} (max : Nat) (h : Clean s) : BuilderOk max s :=
  ⟨h.1, fun ⟨t, ht⟩ => absurd ht (h.2 t)⟩

theorem clean_msg_start (s : Sender) (hdr : MsgHdr) : Clean (s.msg_start hdr) :=
  ⟨fun _ => rfl, fun t ht => by simp [Sender.msg_start, Message.start] at ht⟩

/-- Finalizing and emitting a packet within the bound. -/
theorem sized_emit (max : Nat) (s : Sender) (h : pkt_ok max s.m_message) :
    Sized max s s.msg_finalize.emit_message := by
  refine ⟨[s.m_message.finalize], rfl, ?_⟩
  intro p hp
  rw [List.mem_singleton] at hp
  subst hp
  exact h

theorem builderOk_add_template_empty (max : Nat) (s : Sender) (t : Template)
    (hlen : s.m_message.len = FDS_IPFIX_MSG_HDR_LEN) (hparts : s.m_message.parts = []) :
    BuilderOk max (s.msg_add_template t) := by
  refine ⟨fun hnil => by simp [Sender.msg_add_template, Message.add_template] at hnil, ?_⟩
  intro _
  right
  refine ⟨t, by simp [Sender.msg_add_template, Message.add_template, hparts], ?_⟩
  simp [Sender.msg_add_template, Message.add_template, Message.must_open_set, hparts, hlen]

theorem template_step_sized (env : Env) (n : Nat) (s : Sender) (t : Template)
    (h : BuilderOk env.TMPLTMSG_MAX_LENGTH s) :
    Sized env.TMPLTMSG_MAX_LENGTH s (template_step env n s t)
      ∧ BuilderOk env.TMPLTMSG_MAX_LENGTH (template_step env n s t) := by
  unfold template_step
  dsimp only
  split
  · refine ⟨?_, builderOk_add_template_empty _ _ t rfl rfl⟩
    obtain ⟨new, hnew, hp⟩ := sized_emit env.TMPLTMSG_MAX_LENGTH s h.2
    exact ⟨new, hnew, hp⟩
  · rename_i hcond
    refine ⟨⟨[], by simp [Sender.msg_add_template], by simp⟩, ?_⟩
    by_cases hempty : s.m_message.parts = []
    · exact builderOk_add_template_empty _ s t (h.1 hempty) hempty
    · have hfit : s.m_message.len + FDS_IPFIX_SET_HDR_LEN + t.raw_length
          ≤ env.TMPLTMSG_MAX_LENGTH := by
        by_contra hgt
        apply hcond
        refine ⟨Nat.lt_of_not_le hgt, ?_⟩
        cases hp : s.m_message.parts with
        | nil => exact absurd hp hempty
        | cons a l => simp [Message.empty, hp]
      refine ⟨fun hnil => by simp [Sender.msg_add_template, Message.add_template] at hnil, ?_⟩
      intro _
      left
      show s.m_message.len + (if s.m_message.must_open_set then FDS_IPFIX_SET_HDR_LEN else 0)
        + t.raw_length ≤ env.TMPLTMSG_MAX_LENGTH
      split <;> omega

theorem templates_each_sized (env : Env) (tsnap : SnapId) (n : Nat) (s : Sender)
    (h : BuilderOk env.TMPLTMSG_MAX_LENGTH s) :
    Sized env.TMPLTMSG_MAX_LENGTH s (templates_each env s tsnap n)
      ∧ BuilderOk env.TMPLTMSG_MAX_LENGTH (templates_each env s tsnap n) := by
  unfold templates_each
  generalize env.tsnapshot_for_each tsnap = ts
  induction ts generalizing s with
  | nil => exact ⟨sized_refl _ s, h⟩
  | cons t ts ih =>
    obtain ⟨h1, b1⟩ := template_step_sized env n s t h
    obtain ⟨h2, b2⟩ := ih _ b1
    exact ⟨h1.sized_then h2, b2⟩

theorem flush_sized (max : Nat) (s : Sender) (h : pkt_ok max s.m_message) :
    Sized max s (flush s) := by
  unfold flush
  split
  · exact sized_emit max s h
  · exact sized_refl max s

theorem templates_begin_clean (env : Env) (s : Sender) (tsnap : SnapId) (n : Nat)
    (h : Clean s) :
    Sized env.TMPLTMSG_MAX_LENGTH s (templates_begin env s tsnap n)
      ∧ Clean (templates_begin env s tsnap n) := by
  unfold templates_begin
  dsimp only
  split
  · refine ⟨⟨[], by simp [Sender.msg_add_template_withdrawal_all], by simp⟩, ?_, ?_⟩
    · intro hnil
      simp [Sender.msg_add_template_withdrawal_all, Message.add_template_withdrawal_all] at hnil
    · intro t ht
      simp [Sender.msg_add_template_withdrawal_all, Message.add_template_withdrawal_all] at ht
      exact h.2 t ht
  · exact ⟨⟨[], by simp, by simp⟩, h⟩

/-- The packets `process_templates` emits from a packet in progress that holds
no template are within the bound, and the method leaves an empty packet. -/
theorem process_templates_sized (env : Env) (s : Sender) (tsnap : SnapId) (n : Nat)
    (h : Clean s) :
    Sized env.TMPLTMSG_MAX_LENGTH s (process_templates env s tsnap n)
      ∧ Clean (process_templates env s tsnap n) := by
  obtain ⟨h1, c1⟩ := templates_begin_clean env s tsnap n h
  obtain ⟨h2, b2⟩ := templates_each_sized env tsnap n _ (c1.builderOk env.TMPLTMSG_MAX_LENGTH)
  have h3 := flush_sized env.TMPLTMSG_MAX_LENGTH _ b2.2
  refine ⟨?_, clean_msg_start _ _⟩
  obtain ⟨new, hnew, hp⟩ := (h1.sized_then h2).sized_then h3
  exact ⟨new, hnew, hp⟩

theorem process_sets_sized (env : Env) (msg : Msg) (sets : List IpfixSet) (s : Sender)
    (h : Clean s) :
    Sized env.TMPLTMSG_MAX_LENGTH s (process_sets env msg s sets)
      ∧ Clean (process_sets env msg s sets) := by
  induction sets generalizing s with
  | nil => exact ⟨sized_refl _ s, h⟩
  | cons set_hdr rest ih =>
    unfold process_sets
    dsimp only
    split
    · have hc : Clean (s.msg_add_set set_hdr) := by
        refine ⟨fun hnil => by simp [Sender.msg_add_set, Message.add_set] at hnil, ?_⟩
        intro t ht
        simp [Sender.msg_add_set, Message.add_set] at ht
        exact h.2 t ht
      obtain ⟨h2, c2⟩ := ih _ hc
      obtain ⟨new, hnew, hp⟩ := h2
      exact ⟨⟨new, hnew, hp⟩, c2⟩
    · split
      · exact ⟨sized_refl _ s, h⟩
      · split
        · exact ⟨sized_refl _ s, h⟩
        · split
          · exact ih s h
          · obtain ⟨h1, c1⟩ := process_templates_sized env s _ _ h
            obtain ⟨h2, c2⟩ := ih _ c1
            exact ⟨h1.sized_then h2, c2⟩

theorem process_message_begin_sized (env : Env) (s : Sender) (msg : Msg) :
    Sized env.TMPLTMSG_MAX_LENGTH s (process_message_begin env s msg)
      ∧ Clean (process_message_begin env s msg) := by
  unfold process_message_begin
  have c0 : Clean (s.msg_start { msg.hdr with seq_num := s.m_seq_num }).tick :=
    clean_msg_start s _
  have h0 : Sized env.TMPLTMSG_MAX_LENGTH s
      (s.msg_start { msg.hdr with seq_num := s.m_seq_num }).tick := ⟨[], by
    simp [Sender.tick, Sender.msg_start], by simp⟩
  cases ipx_msg_ipfix_get_drec msg 0 with
  | none => exact ⟨h0, c0⟩
  | some drec =>
    dsimp only
    split
    · obtain ⟨h1, c1⟩ := process_templates_sized env _ drec.snap s.m_seq_num c0
      exact ⟨h0.sized_then h1, c1⟩
    · exact ⟨h0, c0⟩

/-- C9, as stated, fails. With maximum 100, the packets emitted for one
message are: a packet of length 110 holding a single template of raw length
90 (which alone does not exceed 100), two packets within the maximum, and a
packet of length 216 holding a verbatim data set. -/
theorem packet_length_counterexample :
    (process_message exEnv (Sender.init false 0 0) exMsgMixed).emitted.map
        (fun p => (p.parts, p.len, within_max_or_oversized exEnv.TMPLTMSG_MAX_LENGTH p))
      = [([Part.template ⟨256, 90⟩], 110, false),
         ([Part.template ⟨257, 20⟩], 40, true),
         ([Part.set ⟨16, 256, 84⟩], 100, true),
         ([Part.template ⟨300, 10⟩], 30, true),
         ([Part.set ⟨120, 257, 200⟩], 216, false)] := by
  decide

/-- C9, amended. Every packet finalized and emitted by `process_message` that
holds a template has an accumulated length of at most `TMPLTMSG_MAX_LENGTH`,
unless that template is all the packet holds, in which case the length is the
message header plus the set header plus the raw length of the template. -/
theorem process_message_packet_length (env : Env) (s : Sender) (msg : Msg) :
    ∃ new, (process_message env s msg).emitted = s.emitted ++ new ∧
      ∀ p ∈ new, (∃ t, Part.template t ∈ p.parts) →
        p.len ≤ env.TMPLTMSG_MAX_LENGTH ∨
        ∃ t, p.parts = [Part.template t]
          ∧ p.len = FDS_IPFIX_MSG_HDR_LEN + FDS_IPFIX_SET_HDR_LEN + t.raw_length := by
  obtain ⟨h1, c1⟩ := process_message_begin_sized env s msg
  obtain ⟨h2, c2⟩ := process_sets_sized env msg msg.sets _ c1
  have h3 := flush_sized env.TMPLTMSG_MAX_LENGTH _ (c2.builderOk env.TMPLTMSG_MAX_LENGTH).2
  obtain ⟨new, hnew, hp⟩ := (h1.sized_then h2).sized_then h3
  exact ⟨new, hnew, hp⟩

/-- Witness of `process_message_packet_length` on a message with two data
sets and a template set between them. -/
theorem process_message_packet_length_witness :
    ∃ new, (process_message exEnv (Sender.init false 0 0) exMsgMixed).emitted
        = (Sender.init false 0 0).emitted ++ new ∧
      ∀ p ∈ new, (∃ t, Part.template t ∈ p.parts) →
        p.len ≤ exEnv.TMPLTMSG_MAX_LENGTH ∨
        ∃ t, p.parts = [Part.template t]
          ∧ p.len = FDS_IPFIX_MSG_HDR_LEN + FDS_IPFIX_SET_HDR_LEN + t.raw_length :=
  process_message_packet_length exEnv (Sender.init false 0 0) exMsgMixed

/-! ### The index found by `find_drec_after_set` -/

theorem toUInt32_toInt32 (n : Nat) : toUInt32 (toInt32 n) = n % 2 ^ 32 := by
  unfold toUInt32 toInt32
  split <;> omega

theorem toInt32_ne_neg_one (n : Nat) (h : n < 2 ^ 32 - 1) : toInt32 n ≠ -1 := by
  unfold toInt32
  split <;> omega

/-- On records ordered by byte offset and all below the record count, the
loop returns -1 if no record lies after `set_end`, and otherwise the index of
the first that does, which is the number of records not after `set_end`. -/
theorem find_drec_loop_ordered (set_end drec_cnt : Nat) (rest : List DRec) (i : Nat)
    (hcnt : i + rest.length ≤ drec_cnt)
    (hord : rest.Pairwise (fun a b => a.data ≤ b.data)) :
    find_drec_loop set_end drec_cnt i rest
      = if rest.countP (fun r => decide (r.data ≤ set_end)) = rest.length then -1
        else toInt32 (i + rest.countP (fun r => decide (r.data ≤ set_end))) := by
  induction rest generalizing i with
  | nil => simp [find_drec_loop]
  | cons r rs ih =>
    have hi : i < drec_cnt := by simp at hcnt; omega
    rw [List.pairwise_cons] at hord
    unfold find_drec_loop
    rw [if_pos hi]
    by_cases hr : r.data > set_end
    · rw [if_pos hr]
      have hzero : (r :: rs).countP (fun r => decide (r.data ≤ set_end)) = 0 := by
        rw [List.countP_eq_zero]
        intro a ha
        rcases List.mem_cons.mp ha with rfl | ha
        · simp; omega
        · have := hord.1 a ha
          simp; omega
      rw [hzero]
      simp
    · rw [if_neg hr, ih (i + 1) (by simp at hcnt ⊢; omega) hord.2]
      have hle : r.data ≤ set_end := by omega
      rw [List.countP_cons_of_pos _ _ (by simpa using hle)]
      have hc := List.countP_le_length (fun r => decide (r.data ≤ set_end)) (l := rs)
      by_cases hall : rs.countP (fun r => decide (r.data ≤ set_end)) = rs.length
      · simp [hall]
      · rw [if_neg hall, if_neg (by rw [List.length_cons]; omega)]
        congr 1
        omega

/-- For a message with records ordered by byte offset, whenever
`find_drec_after_set` finds a record, its index is the number of records not
after the end of the set. -/
theorem find_drec_after_set_ordered (msg : Msg) (set_hdr : IpfixSet)
    (hlen : msg.drecs.length < 2 ^ 32) (hord : drecs_ordered msg)
    (hfound : find_drec_after_set msg set_hdr ≠ -1) :
    toUInt32 (find_drec_after_set msg set_hdr)
      = msg.drecs.countP (fun r => decide (r.data ≤ set_hdr.ptr + set_hdr.length)) := by
  unfold find_drec_after_set at hfound ⊢
  dsimp only at hfound ⊢
  have hcnt : ipx_msg_ipfix_get_drec_cnt msg = msg.drecs.length := Nat.mod_eq_of_lt hlen
  rw [find_drec_loop_ordered _ _ _ 0 (by rw [hcnt]; simp) hord] at hfound ⊢
  split at hfound
  · exact absurd rfl hfound
  · rename_i hne
    rw [if_neg hne, toUInt32_toInt32, Nat.zero_add]
    have hc := List.countP_le_length (fun r => decide (r.data ≤ set_hdr.ptr + set_hdr.length))
      (l := msg.drecs)
    exact Nat.mod_eq_of_lt (by omega)

/-! ### Counting the records before a template set -/

/-- Among sets listed as they lie in the packet, at most one contains a given
record. -/
theorem countP_in_set_le_one (l : List IpfixSet) (r : DRec)
    (hl : l.Pairwise (fun a b => a.ptr + a.length ≤ b.ptr)) :
    l.countP (fun d => isDataSet d && in_set d r) ≤ 1 := by
  induction l with
  | nil => simp
  | cons a l ih =>
    rw [List.pairwise_cons] at hl
    by_cases ha : (isDataSet a && in_set a r) = true
    · rw [List.countP_cons, if_pos ha]
      have hzero : l.countP (fun d => isDataSet d && in_set d r) = 0 := by
        rw [List.countP_eq_zero]
        intro b hb
        have h1 := hl.1 b hb
        simp only [in_set, Bool.and_eq_true, decide_eq_true_eq] at ha ⊢
        omega
      omega
    · rw [List.countP_cons, if_neg ha]
      exact ih hl.2

/-- The number of data sets before the template set `tset` that contain the
record `r` is 1 if `r` is not after the end of `tset`, and 0 otherwise. -/
theorem countP_in_set_before (done rest : List IpfixSet) (tset : IpfixSet) (r : DRec)
    (hl : (done ++ tset :: rest).Pairwise (fun a b => a.ptr + a.length ≤ b.ptr))
    (ht : isDataSet tset = false)
    (hr : ∃ d ∈ done ++ tset :: rest, isDataSet d = true ∧ in_set d r = true) :
    done.countP (fun d => isDataSet d && in_set d r)
      = if r.data ≤ tset.ptr + tset.length then 1 else 0 := by
  rw [List.pairwise_append] at hl
  obtain ⟨hdone, htail, hcross⟩ := hl
  rw [List.pairwise_cons] at htail
  split
  · rename_i hle
    obtain ⟨d, hd, hdata, hin⟩ := hr
    have hmem : d ∈ done := by
      rcases List.mem_append.mp hd with h | h
      · exact h
      · rcases List.mem_cons.mp h with rfl | h
        · rw [ht] at hdata
          exact absurd hdata (by simp)
        · have h1 := htail.1 d h
          simp only [in_set, Bool.and_eq_true, decide_eq_true_eq] at hin
          omega
    have hpos : 0 < done.countP (fun d => isDataSet d && in_set d r) :=
      List.countP_pos_iff.mpr ⟨d, hmem, by simp [hdata, hin]⟩
    have hle1 := countP_in_set_le_one done r hdone
    omega
  · rename_i hgt
    rw [List.countP_eq_zero]
    intro d hd
    have h1 := hcross d hd tset (List.mem_cons_self _ _)
    simp only [in_set, Bool.and_eq_true, decide_eq_true_eq]
    omega

theorem drecs_in_sets_cons_drec (hdr : MsgHdr) (r : DRec) (rs : List DRec)
    (sets ds : List IpfixSet) :
    drecs_in_sets ⟨hdr, r :: rs, sets⟩ ds
      = ds.countP (fun d => isDataSet d && in_set d r) + drecs_in_sets ⟨hdr, rs, sets⟩ ds := by
  induction ds with
  | nil => simp [drecs_in_sets]
  | cons d ds ih =>
    simp only [drecs_in_sets, drecs_in_set, List.countP_cons, ih]
    cases isDataSet d <;> cases in_set d r <;> simp <;> omega

theorem drecs_in_sets_no_drecs (hdr : MsgHdr) (sets ds : List IpfixSet) :
    drecs_in_sets ⟨hdr, [], sets⟩ ds = 0 := by
  induction ds with
  | nil => rfl
  | cons d ds ih => simp [drecs_in_sets, drecs_in_set, ih]

/-- If each record lies in exactly one of the data sets `ds` when it is not
after `e` and in none otherwise, the records inside the data sets `ds` are as
many as the records not after `e`. -/
theorem drecs_in_sets_eq_countP (hdr : MsgHdr) (drecs : List DRec) (sets ds : List IpfixSet)
    (e : Nat)
    (h : ∀ r ∈ drecs, ds.countP (fun d => isDataSet d && in_set d r)
      = if r.data ≤ e then 1 else 0) :
    drecs_in_sets ⟨hdr, drecs, sets⟩ ds = drecs.countP (fun r => decide (r.data ≤ e)) := by
  induction drecs with
  | nil => simp [drecs_in_sets_no_drecs]
  | cons r rs ih =>
    rw [drecs_in_sets_cons_drec, ih (fun a ha => h a (List.mem_cons_of_mem _ ha)),
      h r (List.mem_cons_self _ _), List.countP_cons]
    by_cases hle : r.data ≤ e
    · simp [hle]; omega
    · simp [hle]

/-- The index `find_drec_after_set` finds for a template set is the number of
records inside the data sets listed before it. -/
theorem find_drec_after_set_eq_drecs_before (msg : Msg) (done rest : List IpfixSet)
    (tset : IpfixSet)
    (hsets : msg.sets = done ++ tset :: rest)
    (ht : isDataSet tset = false)
    (hlen : msg.drecs.length < 2 ^ 32) (hord : drecs_ordered msg)
    (hin : drecs_in_data_sets msg) (hlay : sets_in_layout msg)
    (hfound : find_drec_after_set msg tset ≠ -1) :
    toUInt32 (find_drec_after_set msg tset) = drecs_in_sets msg done := by
  rw [find_drec_after_set_ordered msg tset hlen hord hfound]
  symm
  unfold sets_in_layout at hlay
  unfold drecs_in_data_sets at hin
  rw [hsets] at hlay hin
  exact drecs_in_sets_eq_countP msg.hdr msg.drecs msg.sets done _
    (fun r hr => countP_in_set_before done rest tset r hlay ht (hin r hr))

/-! ### Contiguous sequence numbers inside one call -/

theorem drecs_in_packets_snoc (msg : Msg) (E : List Message) (p : Message) :
    drecs_in_packets msg (E ++ [p]) = drecs_in_packets msg E + drecs_in_packet msg p := by
  simp [drecs_in_packets]

theorem seq_contiguous_snoc (msg : Msg) (E : List Message) (p : Message) (n : Nat) :
    seq_contiguous msg n (E ++ [p])
      = (seq_contiguous msg n E
          && decide (p.hdr.seq_num = (n + drecs_in_packets msg E) % 2 ^ 32)) := by
  induction E generalizing n with
  | nil => simp [seq_contiguous, drecs_in_packets]
  | cons q E ih =>
    show (decide (q.hdr.seq_num = n % 2 ^ 32)
        && seq_contiguous msg (n + drecs_in_packet msg q) (E ++ [p])) = _
    rw [ih]
    simp only [seq_contiguous, drecs_in_packets, List.map_cons, List.sum_cons, Bool.and_assoc,
      Nat.add_assoc]

theorem seq_contiguous_drop (msg : Msg) (pre l : List Message) (n : Nat)
    (h : seq_contiguous msg n (pre ++ l) = true) :
    seq_contiguous msg (n + drecs_in_packets msg pre) l = true := by
  induction pre generalizing n with
  | nil => simpa [drecs_in_packets] using h
  | cons q pre ih =>
    simp only [List.cons_append, seq_contiguous, Bool.and_eq_true] at h
    have := ih _ h.2
    simpa [drecs_in_packets, Nat.add_assoc] using this

theorem sets_of_parts_append (a b : List Part) :
    sets_of_parts (a ++ b) = sets_of_parts a ++ sets_of_parts b := by
  induction a with
  | nil => rfl
  | cons p a ih => cases p <;> simp [sets_of_parts, ih]

theorem drecs_in_sets_append (msg : Msg) (a b : List IpfixSet) :
    drecs_in_sets msg (a ++ b) = drecs_in_sets msg a + drecs_in_sets msg b := by
  induction a with
  | nil => simp [drecs_in_sets]
  | cons d a ih => simp [drecs_in_sets, ih, Nat.add_assoc]

theorem SeqInv.congr {msg : Msg} {base : List Message} {seq0 K : Nat} {s t : Sender}
    (h : SeqInv msg base seq0 K s) (he : t.emitted = s.emitted)
    (hm : t.m_message = s.m_message) : SeqInv msg base seq0 K t := by
  obtain ⟨E, h1, h2, h3, h4⟩ := h
  exact ⟨E, by rw [he, h1], h2, by rw [hm, h3], by rw [hm, h4]⟩

/-- Emitting the packet in progress and starting one with the continuation
sequence number keeps the sequence numbers contiguous. -/
theorem SeqInv.split {msg : Msg} {base : List Message} {seq0 K : Nat} {s : Sender}
    (h : SeqInv msg base seq0 K s) (hdr : MsgHdr) (hn : hdr.seq_num = (seq0 + K) % 2 ^ 32) :
    SeqInv msg base seq0 K (s.msg_finalize.emit_message.msg_start hdr) := by
  obtain ⟨E, h1, h2, h3, h4⟩ := h
  refine ⟨E ++ [s.m_message.finalize], ?_, ?_, ?_, ?_⟩
  · show s.emitted ++ [s.m_message.finalize] = _
    rw [h1, List.append_assoc]
  · rw [seq_contiguous_snoc, h2]
    simpa [Message.finalize] using h3
  · show hdr.seq_num = _
    rw [hn, drecs_in_packets_snoc, ← h4]
    rfl
  · rw [drecs_in_packets_snoc, ← h4]
    show _ + drecs_in_sets msg (sets_of_parts s.m_message.parts) + 0 = _
    rfl

theorem SeqInv.add_template {msg : Msg} {base : List Message} {seq0 K : Nat} {s : Sender}
    (h : SeqInv msg base seq0 K s) (t : Template) :
    SeqInv msg base seq0 K (s.msg_add_template t) := by
  obtain ⟨E, h1, h2, h3, h4⟩ := h
  refine ⟨E, h1, h2, h3, ?_⟩
  rw [← h4]
  simp [Sender.msg_add_template, Message.add_template, drecs_in_packet, sets_of_parts_append,
    sets_of_parts]

theorem SeqInv.add_withdrawal {msg : Msg} {base : List Message} {seq0 K : Nat} {s : Sender}
    (h : SeqInv msg base seq0 K s) (env : Env) :
    SeqInv msg base seq0 K (s.msg_add_template_withdrawal_all env) := by
  obtain ⟨E, h1, h2, h3, h4⟩ := h
  refine ⟨E, h1, h2, h3, ?_⟩
  rw [← h4]
  simp [Sender.msg_add_template_withdrawal_all, Message.add_template_withdrawal_all,
    drecs_in_packet, sets_of_parts_append, sets_of_parts]

theorem SeqInv.add_set {msg : Msg} {base : List Message} {seq0 K : Nat} {s : Sender}
    (h : SeqInv msg base seq0 K s) (d : IpfixSet) :
    SeqInv msg base seq0 (K + drecs_in_sets msg [d]) (s.msg_add_set d) := by
  obtain ⟨E, h1, h2, h3, h4⟩ := h
  refine ⟨E, h1, h2, h3, ?_⟩
  rw [← h4]
  simp [Sender.msg_add_set, Message.add_set, drecs_in_packet, sets_of_parts_append,
    sets_of_parts, drecs_in_sets_append, Nat.add_assoc]

theorem template_step_seqInv (env : Env) {msg : Msg} {base : List Message} {seq0 K : Nat}
    {s : Sender} (h : SeqInv msg base seq0 K s) (t : Template) :
    SeqInv msg base seq0 K (template_step env ((seq0 + K) % 2 ^ 32) s t) := by
  unfold template_step
  dsimp only
  split
  · exact (h.split _ rfl).add_template t
  · exact h.add_template t

theorem templates_each_seqInv (env : Env) {msg : Msg} {base : List Message} {seq0 K : Nat}
    (tsnap : SnapId) {s : Sender} (h : SeqInv msg base seq0 K s) :
    SeqInv msg base seq0 K (templates_each env s tsnap ((seq0 + K) % 2 ^ 32)) := by
  unfold templates_each
  generalize env.tsnapshot_for_each tsnap = ts
  induction ts generalizing s with
  | nil => exact h
  | cons t ts ih => exact ih (template_step_seqInv env h t)

theorem templates_begin_seqInv (env : Env) {msg : Msg} {base : List Message} {seq0 K : Nat}
    (tsnap : SnapId) (n : Nat) {s : Sender} (h : SeqInv msg base seq0 K s) :
    SeqInv msg base seq0 K (templates_begin env s tsnap n) := by
  unfold templates_begin
  dsimp only
  have h0 : SeqInv msg base seq0 K { s with ops := s.ops ++ [Op.process_templates tsnap n] } :=
    h.congr rfl rfl
  split
  · exact h0.add_withdrawal env
  · exact h0

/-- The end of `process_templates` keeps the sequence numbers contiguous and
leaves an empty packet. -/
theorem templates_finish_seqInv (env : Env) {msg : Msg} {base : List Message} {seq0 K : Nat}
    (tsnap : SnapId) {s : Sender} (h : SeqInv msg base seq0 K s) :
    SeqInv msg base seq0 K (templates_end env (flush s) tsnap ((seq0 + K) % 2 ^ 32)) := by
  unfold flush
  split
  · exact (h.split { s.msg_finalize.emit_message.m_message.header with
        seq_num := (seq0 + K) % 2 ^ 32 } rfl).congr rfl rfl
  · rename_i hne
    have hparts : s.m_message.parts = [] := by
      cases hp : s.m_message.parts with
      | nil => rfl
      | cons a l => exact absurd (by simp [Message.empty, hp]) hne
    obtain ⟨E, h1, h2, h3, h4⟩ := h
    refine ⟨E, h1, h2, ?_, ?_⟩
    · show (seq0 + K) % 2 ^ 32 = _
      rw [← h4]
      simp [drecs_in_packet, hparts, sets_of_parts, drecs_in_sets]
    · rw [← h4]
      simp [drecs_in_packet, hparts, sets_of_parts, drecs_in_sets, templates_end,
        Sender.msg_start, Message.start]

theorem process_templates_seqInv (env : Env) {msg : Msg} {base : List Message} {seq0 K : Nat}
    (tsnap : SnapId) {s : Sender} (h : SeqInv msg base seq0 K s) :
    SeqInv msg base seq0 K (process_templates env s tsnap ((seq0 + K) % 2 ^ 32)) := by
  unfold process_templates
  exact templates_finish_seqInv env tsnap
    (templates_each_seqInv env tsnap (templates_begin_seqInv env tsnap _ h))

theorem isDataSet_of_ids {d : IpfixSet} (h : d.flowset_id ≠ 2 ∧ d.flowset_id ≠ 3) :
    isDataSet d = true := by
  simp [isDataSet, h.1, h.2]

theorem not_isDataSet_of_ids {d : IpfixSet} (h : ¬ (d.flowset_id ≠ 2 ∧ d.flowset_id ≠ 3)) :
    isDataSet d = false := by
  simp only [isDataSet, decide_eq_false_iff_not]
  exact h

theorem process_sets_seqInv (env : Env) (msg : Msg) (base : List Message) (seq0 : Nat)
    (hlen : msg.drecs.length < 2 ^ 32) (hord : drecs_ordered msg)
    (hin : drecs_in_data_sets msg) (hlay : sets_in_layout msg)
    (rest : List IpfixSet) (done : List IpfixSet) (s : Sender)
    (hsets : msg.sets = done ++ rest) (hseq : s.m_seq_num = seq0)
    (h : SeqInv msg base seq0 (drecs_in_sets msg done) s) :
    ∃ K, SeqInv msg base seq0 K (process_sets env msg s rest) := by
  induction rest generalizing done s with
  | nil => exact ⟨_, h⟩
  | cons set_hdr rest ih =>
    have hsets2 : msg.sets = (done ++ [set_hdr]) ++ rest := by
      rw [hsets, List.append_assoc]; rfl
    unfold process_sets
    dsimp only
    split
    · rename_i hid
      refine ih (done ++ [set_hdr]) _ hsets2 hseq ?_
      rw [drecs_in_sets_append]
      exact h.add_set set_hdr
    · rename_i hid
      have hnd : drecs_in_sets msg (done ++ [set_hdr]) = drecs_in_sets msg done := by
        rw [drecs_in_sets_append]
        simp [drecs_in_sets, not_isDataSet_of_ids hid]
      split
      · exact ⟨_, h⟩
      · rename_i hfound
        split
        · exact ⟨_, h⟩
        · split
          · exact ih (done ++ [set_hdr]) s hsets2 hseq (by rw [hnd]; exact h)
          · have hidx := find_drec_after_set_eq_drecs_before msg done rest set_hdr hsets
              (not_isDataSet_of_ids hid) hlen hord hin hlay hfound
            rw [hidx, hseq]
            refine ih (done ++ [set_hdr]) _ hsets2 ?_ ?_
            · rw [(frame_process_templates env s _ _).2.2.2, hseq]
            · rw [hnd]
              exact process_templates_seqInv env _ h

theorem process_message_begin_seqInv (env : Env) (s : Sender) (msg : Msg)
    (hseq : s.m_seq_num < 2 ^ 32) :
    SeqInv msg s.emitted s.m_seq_num 0 (process_message_begin env s msg) := by
  have h0 : SeqInv msg s.emitted s.m_seq_num 0
      (s.msg_start { msg.hdr with seq_num := s.m_seq_num }).tick :=
    ⟨[], by simp [Sender.tick, Sender.msg_start], rfl,
      by simpa [Sender.tick, Sender.msg_start, Message.start, drecs_in_packets]
        using (Nat.mod_eq_of_lt hseq).symm,
      by simp [Sender.tick, Sender.msg_start, Message.start, drecs_in_packets, drecs_in_packet,
        sets_of_parts, drecs_in_sets]⟩
  unfold process_message_begin
  cases ipx_msg_ipfix_get_drec msg 0 with
  | none => exact h0
  | some drec =>
    dsimp only
    split
    · have := process_templates_seqInv env drec.snap h0
      rw [Nat.add_zero, Nat.mod_eq_of_lt hseq] at this
      exact this
    · exact h0

theorem flush_seqInv {msg : Msg} {base : List Message} {seq0 K : Nat} {s : Sender}
    (h : SeqInv msg base seq0 K s) :
    ∃ new, (flush s).emitted = base ++ new ∧ seq_contiguous msg seq0 new = true := by
  obtain ⟨E, h1, h2, h3, -⟩ := h
  unfold flush
  split
  · refine ⟨E ++ [s.m_message.finalize], ?_, ?_⟩
    · show s.emitted ++ [s.m_message.finalize] = _
      rw [h1, List.append_assoc]
    · rw [seq_contiguous_snoc, h2]
      simpa [Message.finalize] using h3
  · exact ⟨E, h1, h2⟩

/-- C2. For every message whose data records are ordered by byte offset and
each lie inside one of the data sets of the message (the sets being listed as
they lie in the packet, the record count and the sequence number being
`uint32_t` values), every packet emitted by `process_message` carries in its
header the sequence number at entry plus the number of records of the
message inside the data sets appended to the packets emitted earlier in the
call, modulo 2^32; hence a packet without a verbatim set carries the
sequence number of the packet emitted after it. -/
theorem process_message_seq_contiguous (env : Env) (s : Sender) (msg : Msg)
    (hseq : s.m_seq_num < 2 ^ 32) (hlen : msg.drecs.length < 2 ^ 32)
    (hord : drecs_ordered msg) (hin : drecs_in_data_sets msg) (hlay : sets_in_layout msg) :
    ∃ new, (process_message env s msg).emitted = s.emitted ++ new ∧
      seq_contiguous msg s.m_seq_num new = true ∧
      (∀ pre p post, new = pre ++ p :: post →
        p.hdr.seq_num = (s.m_seq_num + drecs_in_packets msg pre) % 2 ^ 32) ∧
      (∀ pre p q post, new = pre ++ p :: q :: post → sets_of_parts p.parts = [] →
        p.hdr.seq_num = q.hdr.seq_num) := by
  have hb := process_message_begin_seqInv env s msg hseq
  obtain ⟨K, hK⟩ := process_sets_seqInv env msg s.emitted s.m_seq_num hlen hord hin hlay
    msg.sets [] (process_message_begin env s msg) rfl
    (frame_process_message_begin env s msg).2.2.2 hb
  obtain ⟨new, hnew, hcont⟩ := flush_seqInv hK
  refine ⟨new, hnew, hcont, ?_, ?_⟩
  · intro pre p post hsplit
    rw [hsplit] at hcont
    have h1 := seq_contiguous_drop msg pre (p :: post) _ hcont
    simp only [seq_contiguous, Bool.and_eq_true, decide_eq_true_eq] at h1
    exact h1.1
  · intro pre p q post hsplit hp
    rw [hsplit] at hcont
    have h1 := seq_contiguous_drop msg pre (p :: q :: post) _ hcont
    simp only [seq_contiguous, Bool.and_eq_true, decide_eq_true_eq] at h1
    have h0 : drecs_in_packet msg p = 0 := by simp [drecs_in_packet, hp, drecs_in_sets]
    rw [h1.1, h1.2.1, h0, Nat.add_zero]

/-- Witness of `process_message_seq_contiguous`: from sequence number
2^32 - 1 the packets of the message of `exMsgMixed` carry 2^32 - 1 (two
template packets and the packet of the first data set, which holds one
record) and then 0 (a template packet and the packet of the second data
set). -/
theorem process_message_seq_contiguous_witness :
    (({ Sender.init false 0 0 with m_seq_num := 2 ^ 32 - 1 } : Sender).m_seq_num < 2 ^ 32 ∧
      exMsgMixed.drecs.length < 2 ^ 32 ∧
      drecs_ordered exMsgMixed ∧ drecs_in_data_sets exMsgMixed ∧ sets_in_layout exMsgMixed) ∧
    (process_message exEnv { Sender.init false 0 0 with m_seq_num := 2 ^ 32 - 1 }
        exMsgMixed).emitted.map (fun p => p.hdr.seq_num)
      = [2 ^ 32 - 1, 2 ^ 32 - 1, 2 ^ 32 - 1, 0, 0] ∧
    ∃ new, (process_message exEnv { Sender.init false 0 0 with m_seq_num := 2 ^ 32 - 1 }
        exMsgMixed).emitted
        = ({ Sender.init false 0 0 with m_seq_num := 2 ^ 32 - 1 } : Sender).emitted ++ new ∧
      seq_contiguous exMsgMixed
        ({ Sender.init false 0 0 with m_seq_num := 2 ^ 32 - 1 } : Sender).m_seq_num new = true :=
  ⟨⟨by decide, by decide, by unfold drecs_ordered; decide,
      by unfold drecs_in_data_sets; decide, by unfold sets_in_layout; decide⟩,
    by decide,
    (process_message_seq_contiguous exEnv { Sender.init false 0 0 with m_seq_num := 2 ^ 32 - 1 }
      exMsgMixed (by decide) (by decide) (by unfold drecs_ordered; decide)
      (by unfold drecs_in_data_sets; decide) (by unfold sets_in_layout; decide)).imp
      (fun _ h => ⟨h.1, h.2.1⟩)⟩

/-- What the loop of `find_drec_after_set` returns when it is not -1: the
index of a record that lies after `set_end`, below the record count. -/
theorem find_drec_loop_found (set_end drec_cnt : Nat) (rest : List DRec) (i : Nat)
    (h : find_drec_loop set_end drec_cnt i rest ≠ -1) :
    ∃ k drec, find_drec_loop set_end drec_cnt i rest = toInt32 (i + k)
      ∧ i + k < drec_cnt ∧ rest.get? k = some drec ∧ drec.data > set_end := by
  induction rest generalizing i with
  | nil => exact absurd rfl h
  | cons r rs ih =>
    unfold find_drec_loop at h ⊢
    by_cases hi : i < drec_cnt
    · rw [if_pos hi] at h ⊢
      by_cases hr : r.data > set_end
      · rw [if_pos hr]
        exact ⟨0, r, rfl, hi, rfl, hr⟩
      · rw [if_neg hr] at h ⊢
        obtain ⟨k, drec, h1, h2, h3, h4⟩ := ih (i + 1) h
        refine ⟨k + 1, drec, ?_, by omega, by simpa using h3, h4⟩
        rw [h1]
        congr 1
        omega
    · rw [if_neg hi] at h
      exact absurd rfl h

/-- The record at an index found by `find_drec_after_set` is never null. -/
theorem find_drec_after_set_get_drec (msg : Msg) (set_hdr : IpfixSet)
    (h : find_drec_after_set msg set_hdr ≠ -1) :
    ∃ drec, ipx_msg_ipfix_get_drec msg (toUInt32 (find_drec_after_set msg set_hdr)) = some drec
      ∧ drec.data > set_hdr.ptr + set_hdr.length := by
  unfold find_drec_after_set at h ⊢
  dsimp only at h ⊢
  obtain ⟨k, drec, h1, h2, h3, h4⟩ := find_drec_loop_found _ _ _ 0 h
  refine ⟨drec, ?_, h4⟩
  rw [h1, toUInt32_toInt32, Nat.zero_add] at *
  have hk : k < 2 ^ 32 :=
    Nat.lt_trans h2 (Nat.mod_lt _ (by norm_num))
  rw [Nat.mod_eq_of_lt hk]
  unfold ipx_msg_ipfix_get_drec
  rw [if_pos h2]
  exact h3

/-! ### What `find_drec_after_set` returns -/

/-- The loop of `find_drec_after_set` over records that are all below the
record count: it returns -1 after finding no record after `set_end`, or the
converted index of the first record after `set_end`. -/
theorem find_drec_loop_first (set_end drec_cnt : Nat) (rest : List DRec) (i : Nat)
    (hcnt : i + rest.length ≤ drec_cnt) :
    (find_drec_loop set_end drec_cnt i rest = -1 ∧ ∀ r ∈ rest, r.data ≤ set_end) ∨
    ∃ k drec, find_drec_loop set_end drec_cnt i rest = toInt32 (i + k)
      ∧ rest.get? k = some drec ∧ drec.data > set_end
      ∧ ∀ j d, j < k → rest.get? j = some d → d.data ≤ set_end := by
  induction rest generalizing i with
  | nil => exact Or.inl ⟨rfl, by simp⟩
  | cons r rs ih =>
    have hi : i < drec_cnt := by simp at hcnt; omega
    unfold find_drec_loop
    rw [if_pos hi]
    by_cases hr : r.data > set_end
    · rw [if_pos hr]
      exact Or.inr ⟨0, r, rfl, rfl, hr, fun j d hj _ => absurd hj (Nat.not_lt_zero j)⟩
    · rw [if_neg hr]
      rcases ih (i + 1) (by simp at hcnt ⊢; omega) with ⟨h1, h2⟩ | ⟨k, drec, h1, h2, h3, h4⟩
      · left
        refine ⟨h1, ?_⟩
        intro a ha
        rcases List.mem_cons.mp ha with rfl | ha
        · omega
        · exact h2 a ha
      · right
        refine ⟨k + 1, drec, ?_, by simpa using h2, h3, ?_⟩
        · rw [h1]
          congr 1
          omega
        · intro j d hj hd
          cases j with
          | zero =>
            simp at hd
            subst hd
            omega
          | succ j =>
            exact h4 j d (by omega) (by simpa using hd)

theorem toInt32_of_lt (n : Nat) (h : n < 2 ^ 31) : toInt32 n = (n : Int) := by
  unfold toInt32
  have h1 : n % 2 ^ 32 = n := Nat.mod_eq_of_lt (by omega)
  rw [h1, if_pos h]

/-- C15. For a message with fewer than 2^31 data records,
`find_drec_after_set` returns -1 if and only if no data record of the message
has its payload after the end of the set (start plus length), and otherwise
returns the smallest index of a record whose payload position is strictly
greater than the end of the set. -/
theorem find_drec_after_set_first (msg : Msg) (set_hdr : IpfixSet)
    (hlen : msg.drecs.length < 2 ^ 31) :
    (find_drec_after_set msg set_hdr = -1
      ↔ ∀ r ∈ msg.drecs, r.data ≤ set_hdr.ptr + set_hdr.length) ∧
    (find_drec_after_set msg set_hdr ≠ -1 →
      ∃ (i : Nat) (drec : DRec), find_drec_after_set msg set_hdr = (i : Int)
        ∧ msg.drecs.get? i = some drec
        ∧ drec.data > set_hdr.ptr + set_hdr.length
        ∧ ∀ j d, j < i → msg.drecs.get? j = some d
            → d.data ≤ set_hdr.ptr + set_hdr.length) := by
  have hcnt : ipx_msg_ipfix_get_drec_cnt msg = msg.drecs.length :=
    Nat.mod_eq_of_lt (by omega)
  have hspec := find_drec_loop_first (set_hdr.ptr + set_hdr.length)
    (ipx_msg_ipfix_get_drec_cnt msg) msg.drecs 0 (by rw [hcnt]; simp)
  have hfound : ∀ k drec,
      find_drec_loop (set_hdr.ptr + set_hdr.length) (ipx_msg_ipfix_get_drec_cnt msg) 0 msg.drecs
        = toInt32 (0 + k) → msg.drecs.get? k = some drec →
      find_drec_after_set msg set_hdr = (k : Int) := by
    intro k drec h1 h2
    have hk : k < msg.drecs.length := by
      rcases Nat.lt_or_ge k msg.drecs.length with h | h
      · exact h
      · rw [List.get?_eq_none.mpr h] at h2
        exact absurd h2 (by simp)
    show find_drec_loop _ _ 0 msg.drecs = _
    rw [h1, Nat.zero_add, toInt32_of_lt k (by omega)]
  refine ⟨⟨?_, ?_⟩, ?_⟩
  · intro hneg
    rcases hspec with ⟨_, h2⟩ | ⟨k, drec, h1, h2, _, _⟩
    · exact h2
    · have := hfound k drec h1 h2
      rw [hneg] at this
      omega
  · intro hall
    rcases hspec with ⟨h1, _⟩ | ⟨k, drec, _, h2, h3, _⟩
    · exact h1
    · have := hall drec (List.get?_mem h2)
      omega
  · intro hne
    rcases hspec with ⟨h1, _⟩ | ⟨k, drec, h1, h2, h3, h4⟩
    · exact absurd h1 hne
    · exact ⟨k, drec, hfound k drec h1 h2, h2, h3, h4⟩

/-- Witness of `find_drec_after_set_first`: in a message with records at 24
and 140, the first record after the set that ends at 120 has index 1, and no
record lies after the set that ends at 320. -/
theorem find_drec_after_set_first_witness :
    exMsgMixed.drecs.length < 2 ^ 31 ∧
    find_drec_after_set exMsgMixed ⟨100, 2, 20⟩ = 1 ∧
    find_drec_after_set exMsgMixed ⟨120, 257, 200⟩ = -1 ∧
    (find_drec_after_set exMsgMixed ⟨120, 257, 200⟩ = -1
      ↔ ∀ r ∈ exMsgMixed.drecs, r.data ≤ (⟨120, 257, 200⟩ : IpfixSet).ptr
          + (⟨120, 257, 200⟩ : IpfixSet).length) :=
  ⟨by decide, by decide, by decide,
    (find_drec_after_set_first exMsgMixed ⟨120, 257, 200⟩ (by decide)).1⟩

/-! ### A template set without a data record after it -/

theorem process_sets_stop (env : Env) (msg : Msg) (s : Sender) (tset : IpfixSet)
    (rest : List IpfixSet) (hT : tset.flowset_id = 2 ∨ tset.flowset_id = 3)
    (hnone : find_drec_after_set msg tset = -1) :
    process_sets env msg s (tset :: rest) = s := by
  unfold process_sets
  dsimp only
  rw [if_neg (by omega), if_pos hnone]

theorem find_drec_after_set_of_no_drec (msg : Msg) (set_hdr : IpfixSet)
    (h : ipx_msg_ipfix_get_drec msg 0 = none) : find_drec_after_set msg set_hdr = -1 := by
  unfold ipx_msg_ipfix_get_drec at h
  unfold find_drec_after_set
  dsimp only
  cases hd : msg.drecs with
  | nil => rfl
  | cons r rs =>
    unfold find_drec_loop
    split at h
    · rw [hd] at h
      exact absurd h (by simp)
    · rename_i hcnt
      rw [if_neg hcnt]

theorem isDataSet_iff (d : IpfixSet) :
    isDataSet d = true ↔ (d.flowset_id ≠ 2 ∧ d.flowset_id ≠ 3) := by
  simp [isDataSet]

/-- The loop over the sets appends the data sets at the head of the list. -/
theorem process_sets_cons_data (env : Env) (msg : Msg) (s : Sender) (d : IpfixSet)
    (rest : List IpfixSet) (hd : isDataSet d = true) :
    process_sets env msg s (d :: rest) = process_sets env msg (s.msg_add_set d) rest := by
  conv => lhs; unfold process_sets
  dsimp only
  rw [if_pos ((isDataSet_iff d).mp hd)]

theorem process_sets_data_sets (env : Env) (msg : Msg) (ds rest : List IpfixSet) (s : Sender)
    (hds : ∀ d ∈ ds, isDataSet d = true) :
    process_sets env msg s (ds ++ rest)
      = process_sets env msg (ds.foldl Sender.msg_add_set s) rest := by
  induction ds generalizing s with
  | nil => rfl
  | cons d ds ih =>
    rw [List.cons_append, process_sets_cons_data env msg s d _ (hds d (List.mem_cons_self _ _)),
      ih _ (fun a ha => hds a (List.mem_cons_of_mem _ ha))]
    rfl

/-- In a message without a first record the loop over the sets appends the
data sets that come before the first template set, and stops. -/
theorem process_sets_no_drec (env : Env) (msg : Msg) (sets : List IpfixSet) (s : Sender)
    (h : ipx_msg_ipfix_get_drec msg 0 = none) :
    process_sets env msg s sets = (sets.takeWhile isDataSet).foldl Sender.msg_add_set s := by
  induction sets generalizing s with
  | nil => rfl
  | cons d rest ih =>
    by_cases hd : isDataSet d = true
    · rw [process_sets_cons_data env msg s d rest hd, List.takeWhile_cons_of_pos hd,
        List.foldl_cons, ih]
    · have hT : d.flowset_id = 2 ∨ d.flowset_id = 3 := by
        have := (isDataSet_iff d).not.mp hd
        omega
      rw [process_sets_stop env msg s d rest hT (find_drec_after_set_of_no_drec msg d h),
        List.takeWhile_cons_of_neg hd]
      rfl

theorem foldl_msg_add_set_message (ds : List IpfixSet) (s : Sender) :
    (ds.foldl Sender.msg_add_set s).m_message.parts = s.m_message.parts ++ ds.map Part.set ∧
    (ds.foldl Sender.msg_add_set s).m_message.hdr = s.m_message.hdr ∧
    (ds.foldl Sender.msg_add_set s).emitted = s.emitted := by
  induction ds generalizing s with
  | nil => simp
  | cons d ds ih =>
    obtain ⟨h1, h2, h3⟩ := ih (s.msg_add_set d)
    refine ⟨?_, ?_, ?_⟩
    · rw [List.foldl_cons, h1]
      simp [Sender.msg_add_set, Message.add_set]
    · rw [List.foldl_cons, h2]
      rfl
    · rw [List.foldl_cons, h3]
      rfl

theorem quiet_foldl_msg_add_set (ds : List IpfixSet) (s : Sender) :
    Quiet s (ds.foldl Sender.msg_add_set s) := by
  induction ds generalizing s with
  | nil => exact Quiet.quiet_refl s
  | cons d ds ih => exact (quiet_msg_add_set s d).quiet_then (ih _)

/-- The packet emitted after appending data sets to an empty packet. -/
theorem flush_data_sets_emitted (ds : List IpfixSet) (b : Sender)
    (hb : b.m_message.parts = []) :
    ∃ new, (flush (ds.foldl Sender.msg_add_set b)).emitted = b.emitted ++ new ∧
      new.length ≤ 1 ∧ (new = [] ↔ ds = []) ∧
      ∀ p ∈ new, p.parts = ds.map Part.set ∧ p.hdr.seq_num = b.m_message.hdr.seq_num := by
  obtain ⟨h1, h2, h3⟩ := foldl_msg_add_set_message ds b
  rw [hb, List.nil_append] at h1
  unfold flush
  split
  · rename_i hne
    refine ⟨[(ds.foldl Sender.msg_add_set b).m_message.finalize], ?_, by simp, ?_, ?_⟩
    · show (ds.foldl Sender.msg_add_set b).emitted
          ++ [(ds.foldl Sender.msg_add_set b).m_message.finalize] = _
      rw [h3]
    · constructor
      · intro habs
        exact absurd habs (by simp)
      · intro htw
        rw [Message.empty, h1, htw] at hne
        exact absurd hne (by simp)
    · intro p hp
      rw [List.mem_singleton] at hp
      subst hp
      refine ⟨h1, ?_⟩
      show (ds.foldl Sender.msg_add_set b).m_message.hdr.seq_num = _
      rw [h2]
  · rename_i he
    refine ⟨[], by rw [h3]; simp, by simp, ?_, by simp⟩
    constructor
    · intro _
      rw [Message.empty, h1] at he
      cases htw : ds with
      | nil => rfl
      | cons a l => rw [htw] at he; exact absurd he (by simp)
    · intro _
      rfl

theorem process_message_begin_no_drec (env : Env) (s : Sender) (msg : Msg)
    (h : ipx_msg_ipfix_get_drec msg 0 = none) :
    process_message_begin env s msg
      = (s.msg_start { msg.hdr with seq_num := s.m_seq_num }).tick := by
  unfold process_message_begin
  simp only [h]

theorem ipx_msg_ipfix_get_drec_nil (msg : Msg) (idx : Nat) (h : msg.drecs = []) :
    ipx_msg_ipfix_get_drec msg idx = none := by
  unfold ipx_msg_ipfix_get_drec
  rw [h]
  simp

/-- C19. For every state (the sequence number being a `uint32_t`) and every
message with zero data records, `process_message` performs no template
resend and appends no withdrawal set: what it adds to the log are only
`start`, `add_set`, `finalize` and `emit` entries; the last snapshot sent,
the time of the last resend and the sequence number are unchanged; the
packet counter grows by one; and at most one packet is emitted, which holds
exactly the data sets that come before the first template set of the message
(none is emitted if there is no such set). -/
theorem process_message_no_records (env : Env) (s : Sender) (msg : Msg)
    (hd : msg.drecs = []) (hseq : s.m_seq_num < 2 ^ 32) :
    (∃ rest, (process_message env s msg).ops = s.ops ++ rest
      ∧ ∀ op ∈ rest, op.isPlain = true) ∧
    resend_count (process_message env s msg) = resend_count s ∧
    (process_message env s msg).m_tsnap = s.m_tsnap ∧
    (process_message env s msg).m_last_tmplts_sent_time = s.m_last_tmplts_sent_time ∧
    (process_message env s msg).m_seq_num = s.m_seq_num ∧
    (process_message env s msg).m_pkts_since_tmplts_sent = s.m_pkts_since_tmplts_sent + 1 ∧
    ∃ new, (process_message env s msg).emitted = s.emitted ++ new ∧
      new.length ≤ 1 ∧
      (new = [] ↔ msg.sets.takeWhile isDataSet = []) ∧
      ∀ p ∈ new, p.parts = (msg.sets.takeWhile isDataSet).map Part.set
        ∧ p.hdr.seq_num = s.m_seq_num := by
  have hnone := ipx_msg_ipfix_get_drec_nil msg 0 hd
  have hwalk : process_sets env msg (process_message_begin env s msg) msg.sets
      = (msg.sets.takeWhile isDataSet).foldl Sender.msg_add_set
          (s.msg_start { msg.hdr with seq_num := s.m_seq_num }).tick := by
    rw [process_sets_no_drec env msg msg.sets _ hnone, process_message_begin_no_drec env s msg hnone]
  have hq : Quiet s (flush (process_sets env msg (process_message_begin env s msg) msg.sets)) := by
    rw [hwalk]
    exact (((quiet_msg_start s _).quiet_then (quiet_tick _)).quiet_then
      (quiet_foldl_msg_add_set _ _)).quiet_then (quiet_flush _)
  refine ⟨hq.1, hq.resend_count_eq, hq.2.2.1, hq.2.2.2, ?_, ?_, ?_⟩
  · rw [process_message_seq_num, hd]
    simpa using Nat.mod_eq_of_lt hseq
  · show (flush _).m_pkts_since_tmplts_sent + 1 = _
    rw [hq.2.1]
  · obtain ⟨new, h1, h2, h3, h4⟩ := flush_data_sets_emitted (msg.sets.takeWhile isDataSet)
      (s.msg_start { msg.hdr with seq_num := s.m_seq_num }).tick rfl
    refine ⟨new, ?_, h2, h3, h4⟩
    show (flush _).emitted = _
    rw [hwalk]
    exact h1

/-- Witness of `process_message_no_records`: right after `clear_templates`,
with both thresholds reached, a message without records whose first set is a
data set leaves the resend state as it is and emits one packet holding that
set. -/
theorem process_message_no_records_witness :
    exMsgNoRecordsData.drecs = [] ∧
    (clear_templates { Sender.init true 1 1 with m_pkts_since_tmplts_sent := 5 }).m_seq_num
      < 2 ^ 32 ∧
    (process_message exEnv
        (clear_templates { Sender.init true 1 1 with m_pkts_since_tmplts_sent := 5 })
        exMsgNoRecordsData).emitted.map (fun p => p.parts) = [[Part.set ⟨16, 256, 30⟩]] ∧
    (process_message exEnv
        (clear_templates { Sender.init true 1 1 with m_pkts_since_tmplts_sent := 5 })
        exMsgNoRecordsData).m_pkts_since_tmplts_sent = 5 + 1 ∧
    resend_count (process_message exEnv
        (clear_templates { Sender.init true 1 1 with m_pkts_since_tmplts_sent := 5 })
        exMsgNoRecordsData)
      = resend_count (clear_templates { Sender.init true 1 1 with m_pkts_since_tmplts_sent := 5 }) :=
  ⟨by decide, by decide, by decide,
    (process_message_no_records exEnv
      (clear_templates { Sender.init true 1 1 with m_pkts_since_tmplts_sent := 5 })
      exMsgNoRecordsData (by decide) (by decide)).2.2.2.2.2.1,
    (process_message_no_records exEnv
      (clear_templates { Sender.init true 1 1 with m_pkts_since_tmplts_sent := 5 })
      exMsgNoRecordsData (by decide) (by decide)).2.1⟩

/-! ### All the records of a message under one snapshot -/

theorem resend_count_template_step (env : Env) (n : Nat) (s : Sender) (t : Template) :
    resend_count (template_step env n s t) = resend_count s := by
  unfold template_step
  dsimp only
  split <;>
    simp [resend_count, Sender.msg_add_template, Sender.msg_start, Sender.emit_message,
      Sender.msg_finalize, Op.isResend]

theorem resend_count_templates_each (env : Env) (tsnap : SnapId) (n : Nat) (s : Sender) :
    resend_count (templates_each env s tsnap n) = resend_count s := by
  unfold templates_each
  generalize env.tsnapshot_for_each tsnap = ts
  induction ts generalizing s with
  | nil => rfl
  | cons t ts ih => rw [List.foldl_cons, ih, resend_count_template_step]

/-- One `process_templates` call is one entry in the count of resends. -/
theorem resend_count_process_templates (env : Env) (s : Sender) (tsnap : SnapId) (n : Nat) :
    resend_count (process_templates env s tsnap n) = resend_count s + 1 := by
  have h1 : resend_count (templates_begin env s tsnap n) = resend_count s + 1 := by
    unfold resend_count
    rw [templates_begin_ops]
    cases s.m_do_withdrawals <;> simp [Op.isResend]
  have h2 := resend_count_templates_each env tsnap n (templates_begin env s tsnap n)
  have h3 := (quiet_flush (templates_each env (templates_begin env s tsnap n) tsnap n)).resend_count_eq
  have h4 : resend_count (process_templates env s tsnap n)
      = resend_count (flush (templates_each env (templates_begin env s tsnap n) tsnap n)) := by
    unfold process_templates resend_count
    dsimp only
    rw [templates_end_ops]
    simp [Op.isResend]
  rw [h4, h3, h2, h1]

/-- After the first part of `process_message` on a message with a first
record, the last snapshot sent is the snapshot of that record, and
`process_templates` was entered at most once. -/
theorem process_message_begin_tsnap (env : Env) (s : Sender) (msg : Msg) (drec : DRec)
    (h : ipx_msg_ipfix_get_drec msg 0 = some drec) :
    (process_message_begin env s msg).m_tsnap = some drec.snap ∧
    resend_count (process_message_begin env s msg) ≤ resend_count s + 1 := by
  have h0 : resend_count (s.msg_start { msg.hdr with seq_num := s.m_seq_num }).tick
      = resend_count s :=
    ((quiet_msg_start s _).quiet_then (quiet_tick _)).resend_count_eq
  cases hdue : resend_due (s.msg_start { msg.hdr with seq_num := s.m_seq_num }).tick
      (env.get_monotonic_time s.clock_reads) drec.snap with
  | true =>
    rw [process_message_begin_due env s msg drec h hdue]
    refine ⟨rfl, ?_⟩
    rw [resend_count_process_templates, h0]
  | false =>
    rw [process_message_begin_not_due env s msg drec h hdue]
    refine ⟨?_, by rw [h0]; exact Nat.le_succ _⟩
    simp only [resend_due, Bool.or_eq_false_iff, decide_eq_false_iff_not, not_not] at hdue
    exact hdue.1.1

/-- A template set whose following record carries the last snapshot sent is
skipped. -/
theorem process_sets_skip (env : Env) (msg : Msg) (s : Sender) (tset : IpfixSet)
    (rest : List IpfixSet) (drec : DRec)
    (hT : tset.flowset_id = 2 ∨ tset.flowset_id = 3)
    (hfound : find_drec_after_set msg tset ≠ -1)
    (hdrec : ipx_msg_ipfix_get_drec msg (toUInt32 (find_drec_after_set msg tset)) = some drec)
    (hsnap : s.m_tsnap = some drec.snap) :
    process_sets env msg s (tset :: rest) = process_sets env msg s rest := by
  conv => lhs; unfold process_sets
  dsimp only
  rw [if_neg (by omega), if_neg hfound]
  simp only [hdrec]
  rw [if_pos hsnap]

/-- C17. For every message all of whose data records carry the same snapshot
`S`, whatever the thresholds and the number of template sets:
`process_message` enters `process_templates` at most once; the loop over the
sets enters it for no set and appends no template and no withdrawal set; and
once `S` is the last snapshot sent, a template set whose following record has
snapshot `S` is skipped, the loop going on with the next set from the same
state. -/
theorem process_message_one_snapshot (env : Env) (s : Sender) (msg : Msg) (S : SnapId)
    (hall : ∀ r ∈ msg.drecs, r.snap = S) :
    resend_count (process_message env s msg) ≤ resend_count s + 1 ∧
    Quiet (process_message_begin env s msg)
      (process_sets env msg (process_message_begin env s msg) msg.sets) ∧
    (∀ (s2 : Sender) (tset : IpfixSet) (rest : List IpfixSet),
      s2.m_tsnap = some S → (tset.flowset_id = 2 ∨ tset.flowset_id = 3) →
      find_drec_after_set msg tset ≠ -1 →
      process_sets env msg s2 (tset :: rest) = process_sets env msg s2 rest) := by
  have hwalk : Quiet (process_message_begin env s msg)
      (process_sets env msg (process_message_begin env s msg) msg.sets)
      ∧ resend_count (process_message_begin env s msg) ≤ resend_count s + 1 := by
    cases hd : ipx_msg_ipfix_get_drec msg 0 with
    | none =>
      refine ⟨?_, ?_⟩
      · rw [process_sets_no_drec env msg msg.sets _ hd]
        exact quiet_foldl_msg_add_set _ _
      · rw [process_message_begin_no_drec env s msg hd,
          ((quiet_msg_start s _).quiet_then (quiet_tick _)).resend_count_eq]
        exact Nat.le_succ _
    | some drec =>
      obtain ⟨h1, h2⟩ := process_message_begin_tsnap env s msg drec hd
      refine ⟨?_, h2⟩
      apply quiet_process_sets_of_same_snapshot
      intro r hr
      rw [h1, hall r hr, hall drec (ipx_msg_ipfix_get_drec_mem hd)]
  refine ⟨?_, hwalk.1, ?_⟩
  · have hq := hwalk.1.quiet_then (quiet_flush _)
    have : resend_count (process_message env s msg)
        = resend_count (flush (process_sets env msg (process_message_begin env s msg)
            msg.sets)) := rfl
    rw [this, hq.resend_count_eq]
    exact hwalk.2
  · intro s2 tset rest hs2 hT hfound
    obtain ⟨drec, hdrec, -⟩ := find_drec_after_set_get_drec msg tset hfound
    exact process_sets_skip env msg s2 tset rest drec hT hfound hdrec
      (by rw [hs2, hall drec (ipx_msg_ipfix_get_drec_mem hdrec)])

/-- Witness of `process_message_one_snapshot`: a first message whose two
records carry snapshot 1 and which holds a template set between its two data
sets; the templates are sent once, before the sets, and both data sets go
into one packet. -/
theorem process_message_one_snapshot_witness :
    (∀ r ∈ exMsgSameSnapshot.drecs, r.snap = 1) ∧
    resend_count (process_message exEnv (Sender.init false 0 0) exMsgSameSnapshot)
      ≤ resend_count (Sender.init false 0 0) + 1 ∧
    resend_count (process_message exEnv (Sender.init false 0 0) exMsgSameSnapshot) = 1 ∧
    (process_message exEnv (Sender.init false 0 0) exMsgSameSnapshot).emitted.map
        (fun p => p.parts)
      = [[Part.template ⟨256, 90⟩], [Part.template ⟨257, 20⟩],
         [Part.set ⟨16, 256, 84⟩, Part.set ⟨120, 257, 200⟩]] :=
  ⟨by decide,
    (process_message_one_snapshot exEnv (Sender.init false 0 0) exMsgSameSnapshot 1
      (by decide)).1,
    by decide, by decide⟩

/-! ### The split rule of `process_templates` -/

/-- C16. In one run of the lambda of `process_templates`, `add_template` is
applied to a sender state `b` such that, if the packet of `b` is not empty,
its length plus the size of a set header plus the raw length of the template
is at most `TMPLTMSG_MAX_LENGTH`. That state is the one at entry if the
template fits or the packet is empty; otherwise the packet is finalized and
emitted first and `b` holds a new, empty packet whose header carries the
continuation sequence number `next_seq_num`. -/
theorem template_step_split_rule (env : Env) (next_seq_num : Nat) (s : Sender)
    (tmplt : Template) :
    ∃ b : Sender, template_step env next_seq_num s tmplt = b.msg_add_template tmplt ∧
      (b.m_message.empty = false →
        b.m_message.length + FDS_IPFIX_SET_HDR_LEN + tmplt.raw_length
          ≤ env.TMPLTMSG_MAX_LENGTH) ∧
      ((s.m_message.length + FDS_IPFIX_SET_HDR_LEN + tmplt.raw_length
            ≤ env.TMPLTMSG_MAX_LENGTH ∨ s.m_message.empty = true) → b = s) ∧
      ((s.m_message.length + FDS_IPFIX_SET_HDR_LEN + tmplt.raw_length
            > env.TMPLTMSG_MAX_LENGTH ∧ s.m_message.empty = false) →
        b = s.msg_finalize.emit_message.msg_start
              { s.m_message.finalize.header with seq_num := next_seq_num } ∧
        b.emitted = s.emitted ++ [s.m_message.finalize] ∧
        b.m_message.parts = [] ∧
        b.m_message.hdr.seq_num = next_seq_num ∧
        (template_step env next_seq_num s tmplt).m_message.parts = [Part.template tmplt] ∧
        (template_step env next_seq_num s tmplt).m_message.hdr.seq_num = next_seq_num) := by
  by_cases hsplit : s.m_message.length + FDS_IPFIX_SET_HDR_LEN + tmplt.raw_length
      > env.TMPLTMSG_MAX_LENGTH ∧ s.m_message.empty = false
  · have hstep : template_step env next_seq_num s tmplt
        = (s.msg_finalize.emit_message.msg_start
            { s.m_message.finalize.header with seq_num := next_seq_num }).msg_add_template
            tmplt := by
      unfold template_step
      dsimp only
      rw [if_pos hsplit]
      rfl
    refine ⟨_, hstep, ?_, ?_, ?_⟩
    · intro hne
      exact absurd hne (by simp [Sender.msg_start, Message.start, Message.empty])
    · intro hfit
      rcases hfit with h | h
      · omega
      · rw [h] at hsplit
        exact absurd hsplit.2 (by simp)
    · intro _
      refine ⟨rfl, rfl, rfl, rfl, ?_, ?_⟩
      · rw [hstep]; rfl
      · rw [hstep]; rfl
  · have hstep : template_step env next_seq_num s tmplt = s.msg_add_template tmplt := by
      unfold template_step
      dsimp only
      rw [if_neg hsplit]
    refine ⟨s, hstep, ?_, fun _ => rfl, fun h => absurd h hsplit⟩
    intro hne
    by_contra hgt
    exact hsplit ⟨Nat.lt_of_not_le hgt, hne⟩

/-- Witness of `template_step_split_rule`: with maximum 100, a template of raw
length 20 does not fit into a packet of length 100 that holds a data set; the
packet is emitted and the template starts a packet with sequence number
7. -/
theorem template_step_split_rule_witness :
    (template_step exEnv 7
        { Sender.init false 0 0 with
          m_message := { hdr := exHdr, parts := [Part.set ⟨16, 256, 84⟩], len := 100 } }
        ⟨257, 20⟩).emitted
      = [{ hdr := { exHdr with length := 100 }, parts := [Part.set ⟨16, 256, 84⟩], len := 100 }] ∧
    ∃ b : Sender, template_step exEnv 7
        { Sender.init false 0 0 with
          m_message := { hdr := exHdr, parts := [Part.set ⟨16, 256, 84⟩], len := 100 } }
        ⟨257, 20⟩ = b.msg_add_template ⟨257, 20⟩ ∧
      (b.m_message.empty = false →
        b.m_message.length + FDS_IPFIX_SET_HDR_LEN + (⟨257, 20⟩ : Template).raw_length
          ≤ exEnv.TMPLTMSG_MAX_LENGTH) :=
  ⟨by decide,
    (template_step_split_rule exEnv 7
      { Sender.init false 0 0 with
        m_message := { hdr := exHdr, parts := [Part.set ⟨16, 256, 84⟩], len := 100 } }
      ⟨257, 20⟩).imp (fun _ h => ⟨h.1, h.2.1⟩)⟩

/-! ### What the emitted packets hold -/

theorem parts_of_packets_append (a b : List Message) :
    parts_of_packets (a ++ b) = parts_of_packets a ++ parts_of_packets b := by
  induction a with
  | nil => rfl
  | cons p a ih => simp [parts_of_packets, ih]

theorem PartsInv.parts_congr {base : List Message} {L : List Part} {s t : Sender}
    (h : PartsInv base L s) (he : t.emitted = s.emitted) (hm : t.m_message = s.m_message) :
    PartsInv base L t := by
  obtain ⟨E, h1, h2⟩ := h
  exact ⟨E, by rw [he, h1], by rw [hm, h2]⟩

/-- Emitting the packet in progress and starting a new one loses no part. -/
theorem PartsInv.parts_split {base : List Message} {L : List Part} {s : Sender}
    (h : PartsInv base L s) (hdr : MsgHdr) :
    PartsInv base L (s.msg_finalize.emit_message.msg_start hdr) := by
  obtain ⟨E, h1, h2⟩ := h
  refine ⟨E ++ [s.m_message.finalize], ?_, ?_⟩
  · show s.emitted ++ [s.m_message.finalize] = _
    rw [h1, List.append_assoc]
  · rw [parts_of_packets_append, ← h2]
    simp [parts_of_packets, Sender.msg_start, Message.start, Message.finalize]

theorem PartsInv.parts_add_template {base : List Message} {L : List Part} {s : Sender}
    (h : PartsInv base L s) (t : Template) :
    PartsInv base (L ++ [Part.template t]) (s.msg_add_template t) := by
  obtain ⟨E, h1, h2⟩ := h
  refine ⟨E, h1, ?_⟩
  rw [← h2]
  simp [Sender.msg_add_template, Message.add_template]

theorem PartsInv.parts_add_withdrawal {base : List Message} {L : List Part} {s : Sender}
    (h : PartsInv base L s) (env : Env) :
    PartsInv base (L ++ [Part.withdrawal]) (s.msg_add_template_withdrawal_all env) := by
  obtain ⟨E, h1, h2⟩ := h
  refine ⟨E, h1, ?_⟩
  rw [← h2]
  simp [Sender.msg_add_template_withdrawal_all, Message.add_template_withdrawal_all]

theorem PartsInv.parts_add_set {base : List Message} {L : List Part} {s : Sender}
    (h : PartsInv base L s) (d : IpfixSet) :
    PartsInv base (L ++ [Part.set d]) (s.msg_add_set d) := by
  obtain ⟨E, h1, h2⟩ := h
  refine ⟨E, h1, ?_⟩
  rw [← h2]
  simp [Sender.msg_add_set, Message.add_set]

theorem template_step_partsInv (env : Env) (n : Nat) {base : List Message} {L : List Part}
    {s : Sender} (h : PartsInv base L s) (t : Template) :
    PartsInv base (L ++ [Part.template t]) (template_step env n s t) := by
  unfold template_step
  dsimp only
  split
  · exact (h.parts_split _).parts_add_template t
  · exact h.parts_add_template t

theorem foldl_template_step_partsInv (env : Env) (n : Nat) (ts : List Template)
    {base : List Message} {L : List Part} {s : Sender} (h : PartsInv base L s) :
    PartsInv base (L ++ ts.map Part.template) (ts.foldl (template_step env n) s) := by
  induction ts generalizing L s with
  | nil => simpa using h
  | cons t ts ih =>
    have := ih (template_step_partsInv env n h t)
    simpa using this

theorem templates_begin_partsInv (env : Env) (tsnap : SnapId) (n : Nat)
    {base : List Message} {L : List Part} {s : Sender} (h : PartsInv base L s) :
    PartsInv base (L ++ (if s.m_do_withdrawals then [Part.withdrawal] else []))
      (templates_begin env s tsnap n) := by
  unfold templates_begin
  dsimp only
  have h0 : PartsInv base L { s with ops := s.ops ++ [Op.process_templates tsnap n] } :=
    h.parts_congr rfl rfl
  cases hw : s.m_do_withdrawals with
  | true =>
    rw [if_pos rfl]
    simpa using h0.parts_add_withdrawal env
  | false =>
    simpa using h0

/-- Finalizing and emitting the packet in progress if it is not empty leaves
every part in an emitted packet. -/
theorem flush_partsInv {base : List Message} {L : List Part} {s : Sender}
    (h : PartsInv base L s) :
    ∃ new, (flush s).emitted = base ++ new ∧ parts_of_packets new = L := by
  unfold flush
  split
  · obtain ⟨E, h1, h2⟩ := h
    refine ⟨E ++ [s.m_message.finalize], ?_, ?_⟩
    · show s.emitted ++ [s.m_message.finalize] = _
      rw [h1, List.append_assoc]
    · rw [parts_of_packets_append, ← h2]
      simp [parts_of_packets, Message.finalize]
  · rename_i hne
    have hparts : s.m_message.parts = [] := by
      cases hp : s.m_message.parts with
      | nil => rfl
      | cons a l => exact absurd (by simp [Message.empty, hp]) hne
    obtain ⟨E, h1, h2⟩ := h
    refine ⟨E, h1, ?_⟩
    rw [← h2, hparts, List.append_nil]

/-- The end of `process_templates` loses no part and leaves an empty packet:
all the parts are in packets emitted before the snapshot is recorded. -/
theorem templates_finish_partsInv (env : Env) (tsnap : SnapId) (n : Nat)
    {base : List Message} {L : List Part} {s : Sender} (h : PartsInv base L s) :
    ∃ E, (templates_end env (flush s) tsnap n).emitted = base ++ E
      ∧ (flush s).emitted = base ++ E
      ∧ parts_of_packets E = L := by
  obtain ⟨E, h1, h2⟩ := flush_partsInv h
  exact ⟨E, h1, h1, h2⟩

/-- The packets emitted by `process_templates` hold, in order, what the
packet in progress held at entry, then the withdrawal set if configured, then
every template of the snapshot. -/
theorem process_templates_emitted (env : Env) (s : Sender) (tsnap : SnapId) (n : Nat) :
    ∃ new, (process_templates env s tsnap n).emitted = s.emitted ++ new
      ∧ (flush (templates_each env (templates_begin env s tsnap n) tsnap n)).emitted
          = s.emitted ++ new
      ∧ parts_of_packets new
          = s.m_message.parts ++ resend_parts env s.m_do_withdrawals tsnap := by
  have h0 : PartsInv s.emitted s.m_message.parts s := ⟨[], by simp, rfl⟩
  have h1 := templates_begin_partsInv env tsnap n h0
  have h2 := foldl_template_step_partsInv env n (env.tsnapshot_for_each tsnap) h1
  obtain ⟨E, h3, h4, h5⟩ := templates_finish_partsInv env tsnap n h2
  refine ⟨E, h3, h4, ?_⟩
  rw [h5, resend_parts, List.append_assoc]

theorem process_templates_partsInv (env : Env) (tsnap : SnapId) (n : Nat)
    {base : List Message} {L : List Part} {s : Sender} (h : PartsInv base L s) :
    PartsInv base (L ++ resend_parts env s.m_do_withdrawals tsnap)
      (process_templates env s tsnap n) := by
  have h1 := templates_begin_partsInv env tsnap n h
  have h2 := foldl_template_step_partsInv env n (env.tsnapshot_for_each tsnap) h1
  obtain ⟨E, h3, -, h5⟩ := templates_finish_partsInv env tsnap n h2
  refine ⟨E, h3, ?_⟩
  have hp : (process_templates env s tsnap n).m_message.parts = [] := rfl
  rw [hp, h5, resend_parts, List.append_nil, List.append_assoc]

/-! ### The effect of `process_templates` -/

theorem templates_of_ops_append (a b : List Op) :
    templates_of_ops (a ++ b) = templates_of_ops a ++ templates_of_ops b := by
  induction a with
  | nil => rfl
  | cons op a ih => cases op <;> simp [templates_of_ops, ih]

theorem templates_of_parts_append (a b : List Part) :
    templates_of_parts (a ++ b) = templates_of_parts a ++ templates_of_parts b := by
  induction a with
  | nil => rfl
  | cons p a ih => cases p <;> simp [templates_of_parts, ih]

theorem templates_of_parts_map_template (ts : List Template) :
    templates_of_parts (ts.map Part.template) = ts := by
  induction ts with
  | nil => rfl
  | cons t ts ih => simp [templates_of_parts, ih]

theorem templates_of_parts_resend_parts (env : Env) (wd : Bool) (tsnap : SnapId) :
    templates_of_parts (resend_parts env wd tsnap) = env.tsnapshot_for_each tsnap := by
  unfold resend_parts
  rw [templates_of_parts_append, templates_of_parts_map_template]
  cases wd <;> rfl

theorem template_step_log (env : Env) (n : Nat) (s : Sender) (t : Template) :
    templates_of_ops (template_step env n s t).ops = templates_of_ops s.ops ++ [t] ∧
    (template_step env n s t).clock_reads = s.clock_reads := by
  unfold template_step
  dsimp only
  split
  · refine ⟨?_, rfl⟩
    simp [Sender.msg_add_template, Sender.msg_start, Sender.emit_message, Sender.msg_finalize,
      templates_of_ops_append, templates_of_ops]
  · refine ⟨?_, rfl⟩
    simp [Sender.msg_add_template, templates_of_ops_append, templates_of_ops]

theorem templates_each_log (env : Env) (tsnap : SnapId) (n : Nat) (s : Sender) :
    templates_of_ops (templates_each env s tsnap n).ops
      = templates_of_ops s.ops ++ env.tsnapshot_for_each tsnap ∧
    (templates_each env s tsnap n).clock_reads = s.clock_reads := by
  unfold templates_each
  generalize env.tsnapshot_for_each tsnap = ts
  induction ts generalizing s with
  | nil => simp
  | cons t ts ih =>
    obtain ⟨h1, h2⟩ := ih (template_step env n s t)
    obtain ⟨h3, h4⟩ := template_step_log env n s t
    rw [List.foldl_cons]
    exact ⟨by rw [h1, h3, List.append_assoc]; rfl, by rw [h2, h4]⟩

theorem templates_begin_log (env : Env) (s : Sender) (tsnap : SnapId) (n : Nat) :
    templates_of_ops (templates_begin env s tsnap n).ops = templates_of_ops s.ops ∧
    (templates_begin env s tsnap n).clock_reads = s.clock_reads := by
  refine ⟨?_, ?_⟩
  · rw [templates_begin_ops, templates_of_ops_append]
    cases s.m_do_withdrawals <;> simp [templates_of_ops]
  · unfold templates_begin
    dsimp only
    split <;> rfl

theorem flush_log (s : Sender) :
    templates_of_ops (flush s).ops = templates_of_ops s.ops ∧
    (flush s).clock_reads = s.clock_reads := by
  unfold flush
  split
  · refine ⟨?_, rfl⟩
    simp [Sender.emit_message, Sender.msg_finalize, templates_of_ops_append, templates_of_ops]
  · exact ⟨rfl, rfl⟩

/-- C14. Every `process_templates` call appends every template of the target
snapshot exactly once and in the order of the snapshot, whatever their
lengths; the packets it emits hold, in order, what the packet in progress
held at entry, the withdrawal set if configured, and those templates, and
they are all emitted before the snapshot is recorded as the last one sent; on
return the packet in progress is empty with the continuation sequence number
in its header, the packet counter is 0 and the time of the last resend is the
clock reading made by the call. -/
theorem process_templates_effect (env : Env) (s : Sender) (tsnap : SnapId)
    (next_seq_num : Nat) :
    templates_of_ops (process_templates env s tsnap next_seq_num).ops
      = templates_of_ops s.ops ++ env.tsnapshot_for_each tsnap ∧
    (∃ new, (process_templates env s tsnap next_seq_num).emitted = s.emitted ++ new
      ∧ (flush (templates_each env (templates_begin env s tsnap next_seq_num)
            tsnap next_seq_num)).emitted = s.emitted ++ new
      ∧ parts_of_packets new
          = s.m_message.parts ++ resend_parts env s.m_do_withdrawals tsnap
      ∧ templates_of_parts (parts_of_packets new)
          = templates_of_parts s.m_message.parts ++ env.tsnapshot_for_each tsnap) ∧
    process_templates env s tsnap next_seq_num
      = templates_end env
          (flush (templates_each env (templates_begin env s tsnap next_seq_num)
            tsnap next_seq_num)) tsnap next_seq_num ∧
    (process_templates env s tsnap next_seq_num).m_tsnap = some tsnap ∧
    (process_templates env s tsnap next_seq_num).m_message.empty = true ∧
    (process_templates env s tsnap next_seq_num).m_message.hdr.seq_num = next_seq_num ∧
    (process_templates env s tsnap next_seq_num).m_pkts_since_tmplts_sent = 0 ∧
    (process_templates env s tsnap next_seq_num).m_last_tmplts_sent_time
      = env.get_monotonic_time s.clock_reads ∧
    (process_templates env s tsnap next_seq_num).clock_reads = s.clock_reads + 1 := by
  obtain ⟨b1, b2⟩ := templates_begin_log env s tsnap next_seq_num
  obtain ⟨e1, e2⟩ := templates_each_log env tsnap next_seq_num
    (templates_begin env s tsnap next_seq_num)
  obtain ⟨f1, f2⟩ := flush_log (templates_each env (templates_begin env s tsnap next_seq_num)
    tsnap next_seq_num)
  have hclock : (flush (templates_each env (templates_begin env s tsnap next_seq_num)
      tsnap next_seq_num)).clock_reads = s.clock_reads := by rw [f2, e2, b2]
  refine ⟨?_, ?_, rfl, rfl, rfl, rfl, rfl, ?_, ?_⟩
  · show templates_of_ops (templates_end env _ tsnap next_seq_num).ops = _
    rw [templates_end_ops, templates_of_ops_append, f1, e1, b1]
    simp [templates_of_ops]
  · obtain ⟨new, h1, h2, h3⟩ := process_templates_emitted env s tsnap next_seq_num
    refine ⟨new, h1, h2, h3, ?_⟩
    rw [h3, templates_of_parts_append, templates_of_parts_resend_parts]
  · show env.get_monotonic_time (flush _).clock_reads = _
    rw [hclock]
  · show (flush _).clock_reads + 1 = _
    rw [hclock]

/-! ### The data sets pass through -/

/-- When some record of the message (the record count being a `uint32_t`)
lies after the end of a set, `find_drec_after_set` does not return -1. -/
theorem find_drec_after_set_of_record_after (msg : Msg) (set_hdr : IpfixSet)
    (hlen : msg.drecs.length < 2 ^ 32)
    (h : ∃ r ∈ msg.drecs, r.data > set_hdr.ptr + set_hdr.length) :
    find_drec_after_set msg set_hdr ≠ -1 := by
  have hcnt : ipx_msg_ipfix_get_drec_cnt msg = msg.drecs.length := Nat.mod_eq_of_lt hlen
  have hspec := find_drec_loop_first (set_hdr.ptr + set_hdr.length)
    (ipx_msg_ipfix_get_drec_cnt msg) msg.drecs 0 (by rw [hcnt]; simp)
  show find_drec_loop _ _ 0 msg.drecs ≠ -1
  rcases hspec with ⟨_, h2⟩ | ⟨k, drec, h1, h2, _, _⟩
  · obtain ⟨r, hr, hgt⟩ := h
    have := h2 r hr
    omega
  · rw [h1, Nat.zero_add]
    have hk : k < msg.drecs.length := by
      rcases Nat.lt_or_ge k msg.drecs.length with h | h
      · exact h
      · rw [List.get?_eq_none.mpr h] at h2
        exact absurd h2 (by simp)
    exact toInt32_ne_neg_one k (by omega)

theorem sets_of_parts_map_template (ts : List Template) :
    sets_of_parts (ts.map Part.template) = [] := by
  induction ts with
  | nil => rfl
  | cons t ts ih => simpa [sets_of_parts] using ih

theorem sets_of_parts_resend_parts (env : Env) (wd : Bool) (tsnap : SnapId) :
    sets_of_parts (resend_parts env wd tsnap) = [] := by
  unfold resend_parts
  rw [sets_of_parts_append, sets_of_parts_map_template]
  cases wd <;> rfl

theorem mem_sets_of_parts (d : IpfixSet) (L : List Part) :
    d ∈ sets_of_parts L ↔ Part.set d ∈ L := by
  induction L with
  | nil => simp [sets_of_parts]
  | cons p L ih => cases p <;> simp [sets_of_parts, ih]

theorem mem_parts_of_packets (x : Part) (E : List Message) :
    x ∈ parts_of_packets E ↔ ∃ p ∈ E, x ∈ p.parts := by
  induction E with
  | nil => simp [parts_of_packets]
  | cons q E ih => simp [parts_of_packets, ih]

/-- When every template set from `rest` on has a record after it, the loop
over the sets appends verbatim exactly the data sets of `rest`, in order. -/
theorem process_sets_partsInv (env : Env) (msg : Msg) (base : List Message)
    (rest : List IpfixSet) (L : List Part) (s : Sender)
    (hfound : ∀ tset ∈ rest, isDataSet tset = false → find_drec_after_set msg tset ≠ -1)
    (h : PartsInv base L s) :
    ∃ L2, PartsInv base L2 (process_sets env msg s rest)
      ∧ sets_of_parts L2 = sets_of_parts L ++ rest.filter isDataSet := by
  induction rest generalizing L s with
  | nil => exact ⟨L, h, by simp⟩
  | cons set_hdr rest ih =>
    have hrest : ∀ tset ∈ rest, isDataSet tset = false → find_drec_after_set msg tset ≠ -1 :=
      fun t ht => hfound t (List.mem_cons_of_mem _ ht)
    by_cases hd : isDataSet set_hdr = true
    · rw [process_sets_cons_data env msg s set_hdr rest hd]
      obtain ⟨L2, h2, h3⟩ := ih (L ++ [Part.set set_hdr]) _ hrest (h.parts_add_set set_hdr)
      refine ⟨L2, h2, ?_⟩
      rw [h3, sets_of_parts_append, List.filter_cons_of_pos hd]
      simp [sets_of_parts]
    · have hdf : isDataSet set_hdr = false := by simpa using hd
      have hT : set_hdr.flowset_id = 2 ∨ set_hdr.flowset_id = 3 := by
        have := (isDataSet_iff set_hdr).not.mp hd
        omega
      have hne := hfound set_hdr (List.mem_cons_self _ _) hdf
      obtain ⟨drec, hdrec, -⟩ := find_drec_after_set_get_drec msg set_hdr hne
      rw [List.filter_cons_of_neg hd]
      by_cases hsnap : s.m_tsnap = some drec.snap
      · rw [process_sets_skip env msg s set_hdr rest drec hT hne hdrec hsnap]
        exact ih L s hrest h
      · have hstep : process_sets env msg s (set_hdr :: rest)
            = process_sets env msg
                (process_templates env s drec.snap
                  ((s.m_seq_num + toUInt32 (find_drec_after_set msg set_hdr)) % 2 ^ 32)) rest := by
          conv => lhs; unfold process_sets
          dsimp only
          rw [if_neg (by omega), if_neg hne]
          simp only [hdrec]
          rw [if_neg hsnap]
        rw [hstep]
        obtain ⟨L2, h2, h3⟩ := ih _ _ hrest (process_templates_partsInv env drec.snap _ h)
        refine ⟨L2, h2, ?_⟩
        rw [h3, sets_of_parts_append, sets_of_parts_resend_parts, List.append_nil]

theorem process_message_begin_partsInv (env : Env) (s : Sender) (msg : Msg) :
    ∃ L, PartsInv s.emitted L (process_message_begin env s msg) ∧ sets_of_parts L = [] := by
  have h0 : PartsInv s.emitted [] (s.msg_start { msg.hdr with seq_num := s.m_seq_num }).tick :=
    ⟨[], by simp [Sender.tick, Sender.msg_start], rfl⟩
  unfold process_message_begin
  cases ipx_msg_ipfix_get_drec msg 0 with
  | none => exact ⟨[], h0, rfl⟩
  | some drec =>
    dsimp only
    split
    · refine ⟨_, process_templates_partsInv env drec.snap _ h0, ?_⟩
      rw [List.nil_append, sets_of_parts_resend_parts]
    · exact ⟨[], h0, rfl⟩

/-- C13. For every message (with a `uint32_t` record count) in which every
template set is followed by some data record, the sets appended verbatim,
over all the packets emitted by `process_message` and in the order of
emission, are exactly the sets of the message whose identifier is neither 2
nor 3, each once and in message order; no set with identifier 2 or 3 is in
an emitted packet. -/
theorem process_message_data_sets_pass (env : Env) (s : Sender) (msg : Msg)
    (hlen : msg.drecs.length < 2 ^ 32)
    (hfollow : ∀ tset ∈ msg.sets, isDataSet tset = false →
      ∃ r ∈ msg.drecs, r.data > tset.ptr + tset.length) :
    ∃ new, (process_message env s msg).emitted = s.emitted ++ new ∧
      sets_of_parts (parts_of_packets new) = msg.sets.filter isDataSet ∧
      ∀ p ∈ new, ∀ d, Part.set d ∈ p.parts → d.flowset_id ≠ 2 ∧ d.flowset_id ≠ 3 := by
  obtain ⟨L, h1, h2⟩ := process_message_begin_partsInv env s msg
  obtain ⟨L2, h3, h4⟩ := process_sets_partsInv env msg s.emitted msg.sets L _
    (fun t ht hdf => find_drec_after_set_of_record_after msg t hlen (hfollow t ht hdf)) h1
  obtain ⟨new, h5, h6⟩ := flush_partsInv h3
  have hsets : sets_of_parts (parts_of_packets new) = msg.sets.filter isDataSet := by
    rw [h6, h4, h2, List.nil_append]
  refine ⟨new, h5, hsets, ?_⟩
  intro p hp d hd
  have hmem : d ∈ sets_of_parts (parts_of_packets new) :=
    (mem_sets_of_parts d _).mpr ((mem_parts_of_packets _ _).mpr ⟨p, hp, hd⟩)
  rw [hsets] at hmem
  exact (isDataSet_iff d).mp (List.mem_filter.mp hmem).2

/-- Witness of `process_message_data_sets_pass`: the template set of the
message is followed by the record at 140; the two data sets are emitted, in
order, in two packets. -/
theorem process_message_data_sets_pass_witness :
    exMsgMixed.drecs.length < 2 ^ 32 ∧
    (∀ tset ∈ exMsgMixed.sets, isDataSet tset = false →
      ∃ r ∈ exMsgMixed.drecs, r.data > tset.ptr + tset.length) ∧
    (process_message exEnv (Sender.init true 0 0) exMsgMixed).emitted.map
        (fun p => sets_of_parts p.parts)
      = [[], [], [], [⟨16, 256, 84⟩], [], [⟨120, 257, 200⟩]] ∧
    ∃ new, (process_message exEnv (Sender.init true 0 0) exMsgMixed).emitted
        = (Sender.init true 0 0).emitted ++ new ∧
      sets_of_parts (parts_of_packets new) = exMsgMixed.sets.filter isDataSet :=
  ⟨by decide, by decide, by decide,
    (process_message_data_sets_pass exEnv (Sender.init true 0 0) exMsgMixed
      (by decide) (by decide)).imp (fun _ h => ⟨h.1, h.2.1⟩)⟩

/-! ### No empty packet is finalized -/

theorem finalize_ok_append (a b : List Op) (E1 E2 : List Message) (f : Bool)
    (ha : finalize_ok f a E1 = true) (hb : finalize_ok false b E2 = true) :
    finalize_ok f (a ++ b) (E1 ++ E2) = true := by
  induction a generalizing f E1 with
  | nil =>
    cases f with
    | true => simp [finalize_ok] at ha
    | false =>
      cases E1 with
      | nil => simpa using hb
      | cons p ps => simp [finalize_ok] at ha
  | cons op a ih =>
    cases f with
    | true =>
      cases op with
      | emit =>
        cases E1 with
        | nil => simp [finalize_ok] at ha
        | cons p ps =>
          simp only [finalize_ok, Bool.and_eq_true] at ha
          simp only [List.cons_append, finalize_ok, Bool.and_eq_true]
          exact ⟨ha.1, ih ps false ha.2⟩
      | _ => simp [finalize_ok] at ha
    | false =>
      cases op with
      | emit => simp [finalize_ok] at ha
      | finalize =>
        simp only [finalize_ok] at ha
        simp only [List.cons_append, finalize_ok]
        exact ih E1 true ha
      | _ =>
        simp only [finalize_ok] at ha
        simp only [List.cons_append, finalize_ok]
        exact ih E1 false ha

/-- The packets of a log that reads well are all non-empty. -/
theorem finalize_ok_nonempty (o : List Op) (E : List Message) (f : Bool)
    (h : finalize_ok f o E = true) : ∀ p ∈ E, p.empty = false := by
  induction o generalizing f E with
  | nil =>
    cases f with
    | true => simp [finalize_ok] at h
    | false =>
      cases E with
      | nil => simp
      | cons p ps => simp [finalize_ok] at h
  | cons op o ih =>
    cases f with
    | true =>
      cases op with
      | emit =>
        cases E with
        | nil => simp [finalize_ok] at h
        | cons p ps =>
          simp only [finalize_ok, Bool.and_eq_true, Bool.not_eq_true'] at h
          intro q hq
          rcases List.mem_cons.mp hq with rfl | hq
          · exact h.1
          · exact ih ps false h.2 q hq
      | _ => simp [finalize_ok] at h
    | false =>
      cases op with
      | emit => simp [finalize_ok] at h
      | finalize =>
        simp only [finalize_ok] at h
        exact ih E true h
      | _ =>
        simp only [finalize_ok] at h
        exact ih E false h

theorem flushed_refl (s : Sender) : Flushed s s := ⟨[], [], by simp, by simp, rfl⟩

theorem Flushed.flushed_then {s t u : Sender} (h1 : Flushed s t) (h2 : Flushed t u) :
    Flushed s u := by
  obtain ⟨o1, E1, a1, a2, a3⟩ := h1
  obtain ⟨o2, E2, b1, b2, b3⟩ := h2
  exact ⟨o1 ++ o2, E1 ++ E2, by rw [b1, a1, List.append_assoc],
    by rw [b2, a2, List.append_assoc], finalize_ok_append o1 o2 E1 E2 false a3 b3⟩

theorem flushed_msg_start (s : Sender) (hdr : MsgHdr) : Flushed s (s.msg_start hdr) :=
  ⟨[Op.start hdr], [], rfl, by simp [Sender.msg_start], rfl⟩

theorem flushed_msg_add_set (s : Sender) (d : IpfixSet) : Flushed s (s.msg_add_set d) :=
  ⟨[Op.add_set d], [], rfl, by simp [Sender.msg_add_set], rfl⟩

theorem flushed_msg_add_template (s : Sender) (t : Template) :
    Flushed s (s.msg_add_template t) :=
  ⟨[Op.add_template t], [], rfl, by simp [Sender.msg_add_template], rfl⟩

/-- Finalizing and emitting a non-empty packet. -/
theorem flushed_emit (s : Sender) (h : s.m_message.empty = false) :
    Flushed s s.msg_finalize.emit_message := by
  refine ⟨[Op.finalize, Op.emit], [s.m_message.finalize], ?_, rfl, ?_⟩
  · simp [Sender.emit_message, Sender.msg_finalize]
  · have : s.m_message.finalize.empty = false := h
    simp [finalize_ok, this]

theorem flushed_template_step (env : Env) (n : Nat) (s : Sender) (t : Template) :
    Flushed s (template_step env n s t) := by
  unfold template_step
  dsimp only
  split
  · rename_i hsplit
    exact ((flushed_emit s hsplit.2).flushed_then (flushed_msg_start _ _)).flushed_then
      (flushed_msg_add_template _ t)
  · exact flushed_msg_add_template s t

theorem flushed_templates_each (env : Env) (tsnap : SnapId) (n : Nat) (s : Sender) :
    Flushed s (templates_each env s tsnap n) := by
  unfold templates_each
  generalize env.tsnapshot_for_each tsnap = ts
  induction ts generalizing s with
  | nil => exact flushed_refl s
  | cons t ts ih => exact (flushed_template_step env n s t).flushed_then (ih _)

theorem flushed_flush (s : Sender) : Flushed s (flush s) := by
  unfold flush
  split
  · rename_i hne
    exact flushed_emit s hne
  · exact flushed_refl s

theorem flushed_templates_begin (env : Env) (s : Sender) (tsnap : SnapId) (n : Nat) :
    Flushed s (templates_begin env s tsnap n) := by
  refine ⟨Op.process_templates tsnap n ::
      (if s.m_do_withdrawals then [Op.add_template_withdrawal_all] else []), [],
    templates_begin_ops env s tsnap n, ?_, ?_⟩
  · unfold templates_begin
    dsimp only
    split <;> simp [Sender.msg_add_template_withdrawal_all]
  · cases s.m_do_withdrawals <;> rfl

theorem flushed_templates_end (env : Env) (s : Sender) (tsnap : SnapId) (n : Nat) :
    Flushed s (templates_end env s tsnap n) :=
  ⟨[Op.start { s.m_message.header with seq_num := n }], [], rfl,
    by simp [templates_end, Sender.msg_start, Sender.tick], rfl⟩

theorem flushed_process_templates (env : Env) (s : Sender) (tsnap : SnapId) (n : Nat) :
    Flushed s (process_templates env s tsnap n) := by
  unfold process_templates
  exact (((flushed_templates_begin env s tsnap n).flushed_then
    (flushed_templates_each env tsnap n _)).flushed_then (flushed_flush _)).flushed_then
    (flushed_templates_end env _ tsnap n)

theorem flushed_process_sets (env : Env) (msg : Msg) (sets : List IpfixSet) (s : Sender) :
    Flushed s (process_sets env msg s sets) := by
  induction sets generalizing s with
  | nil => exact flushed_refl s
  | cons set_hdr rest ih =>
    unfold process_sets
    dsimp only
    split
    · exact (flushed_msg_add_set s set_hdr).flushed_then (ih _)
    · split
      · exact flushed_refl s
      · split
        · exact flushed_refl s
        · split
          · exact ih _
          · exact (flushed_process_templates env s _ _).flushed_then (ih _)

theorem flushed_process_message_begin (env : Env) (s : Sender) (msg : Msg) :
    Flushed s (process_message_begin env s msg) := by
  unfold process_message_begin
  have h0 : Flushed s (s.msg_start { msg.hdr with seq_num := s.m_seq_num }).tick :=
    ⟨[Op.start { msg.hdr with seq_num := s.m_seq_num }], [], rfl,
      by simp [Sender.tick, Sender.msg_start], rfl⟩
  cases ipx_msg_ipfix_get_drec msg 0 with
  | none => exact h0
  | some drec =>
    dsimp only
    split
    · exact h0.flushed_then (flushed_process_templates env _ _ _)
    · exact h0

/-- C18. In every `process_message` call and in every `process_templates`
call, from any state: each `finalize` is made on a packet for which `empty()`
is false and is followed at once by the `emit` of that packet, no `emit`
happens without it, and so every packet handed to the emit callback is
non-empty. -/
theorem finalize_only_non_empty (env : Env) (s : Sender) :
    (∀ msg, ∃ o E, (process_message env s msg).ops = s.ops ++ o
      ∧ (process_message env s msg).emitted = s.emitted ++ E
      ∧ finalize_ok false o E = true
      ∧ ∀ p ∈ E, p.empty = false) ∧
    (∀ tsnap next_seq_num, ∃ o E, (process_templates env s tsnap next_seq_num).ops = s.ops ++ o
      ∧ (process_templates env s tsnap next_seq_num).emitted = s.emitted ++ E
      ∧ finalize_ok false o E = true
      ∧ ∀ p ∈ E, p.empty = false) ∧
    (∀ (b : Sender) (tmplt : Template) (n : Nat),
      (template_step env n b tmplt).emitted ≠ b.emitted → b.m_message.empty = false) ∧
    (∀ b : Sender, (flush b).emitted ≠ b.emitted → b.m_message.empty = false) := by
  refine ⟨?_, ?_, ?_, ?_⟩
  · intro msg
    obtain ⟨o, E, h1, h2, h3⟩ := ((flushed_process_message_begin env s msg).flushed_then
      (flushed_process_sets env msg msg.sets _)).flushed_then (flushed_flush _)
    exact ⟨o, E, h1, h2, h3, finalize_ok_nonempty o E false h3⟩
  · intro tsnap n
    obtain ⟨o, E, h1, h2, h3⟩ := flushed_process_templates env s tsnap n
    exact ⟨o, E, h1, h2, h3, finalize_ok_nonempty o E false h3⟩
  · intro b tmplt n hne
    by_contra hempty
    apply hne
    unfold template_step
    dsimp only
    rw [if_neg (fun h => hempty h.2)]
    rfl
  · intro b hne
    by_contra hempty
    apply hne
    unfold flush
    rw [if_neg hempty]

/-! ### The first message of a sender -/

/-- C11. From the initial state (sequence number 0, no snapshot sent),
whatever the configuration, `process_message` on a message with two data
records under snapshot `S1` and no template set, its sets being one or more
data sets: runs `process_templates` once, for `S1` with continuation
sequence number 0, right after the start of the packet; the packets of that
resend hold the withdrawal set if configured and the templates of `S1` and
no verbatim set; exactly one packet follows them, which holds the data sets
of the message and carries sequence number 0; and the sequence number
becomes 2. -/
theorem first_message_two_records (env : Env) (do_withdrawals : Bool)
    (tmplts_resend_pkts tmplts_resend_secs : Nat) (hdr : MsgHdr) (data1 data2 : Nat)
    (S1 : SnapId) (sets : List IpfixSet)
    (hsets : sets ≠ []) (hdata : ∀ d ∈ sets, isDataSet d = true) :
    resend_count (process_message env
        (Sender.init do_withdrawals tmplts_resend_pkts tmplts_resend_secs)
        ⟨hdr, [⟨data1, S1⟩, ⟨data2, S1⟩], sets⟩) = 1 ∧
    (∃ rest, (process_message env
        (Sender.init do_withdrawals tmplts_resend_pkts tmplts_resend_secs)
        ⟨hdr, [⟨data1, S1⟩, ⟨data2, S1⟩], sets⟩).ops
      = Op.start { hdr with seq_num := 0 } :: Op.process_templates S1 0 :: rest) ∧
    (∃ resend_pkts data_pkt, (process_message env
        (Sender.init do_withdrawals tmplts_resend_pkts tmplts_resend_secs)
        ⟨hdr, [⟨data1, S1⟩, ⟨data2, S1⟩], sets⟩).emitted = resend_pkts ++ [data_pkt] ∧
      parts_of_packets resend_pkts = resend_parts env do_withdrawals S1 ∧
      (∀ p ∈ resend_pkts, sets_of_parts p.parts = []) ∧
      data_pkt.parts = sets.map Part.set ∧
      data_pkt.hdr.seq_num = 0) ∧
    (process_message env (Sender.init do_withdrawals tmplts_resend_pkts tmplts_resend_secs)
        ⟨hdr, [⟨data1, S1⟩, ⟨data2, S1⟩], sets⟩).m_tsnap = some S1 ∧
    (process_message env (Sender.init do_withdrawals tmplts_resend_pkts tmplts_resend_secs)
        ⟨hdr, [⟨data1, S1⟩, ⟨data2, S1⟩], sets⟩).m_seq_num = 2 := by
  have hd : ipx_msg_ipfix_get_drec ⟨hdr, [⟨data1, S1⟩, ⟨data2, S1⟩], sets⟩ 0
      = some ⟨data1, S1⟩ := by
    simp [ipx_msg_ipfix_get_drec, ipx_msg_ipfix_get_drec_cnt]
  have hdue : resend_due
      ((Sender.init do_withdrawals tmplts_resend_pkts tmplts_resend_secs).msg_start
        { hdr with seq_num := 0 }).tick
      (env.get_monotonic_time 0) S1 = true := by
    simp [resend_due, Sender.init, Sender.msg_start, Sender.tick]
  have hb := process_message_begin_due env
    (Sender.init do_withdrawals tmplts_resend_pkts tmplts_resend_secs)
    ⟨hdr, [⟨data1, S1⟩, ⟨data2, S1⟩], sets⟩ ⟨data1, S1⟩ hd hdue
  -- the loop over the sets appends every set of the message
  have hwalk : process_sets env ⟨hdr, [⟨data1, S1⟩, ⟨data2, S1⟩], sets⟩
      (process_message_begin env
        (Sender.init do_withdrawals tmplts_resend_pkts tmplts_resend_secs)
        ⟨hdr, [⟨data1, S1⟩, ⟨data2, S1⟩], sets⟩) sets
      = sets.foldl Sender.msg_add_set
          (process_templates env
            ((Sender.init do_withdrawals tmplts_resend_pkts tmplts_resend_secs).msg_start
              { hdr with seq_num := 0 }).tick S1 0) := by
    rw [hb]
    have := process_sets_data_sets env ⟨hdr, [⟨data1, S1⟩, ⟨data2, S1⟩], sets⟩ sets []
      (process_templates env
        ((Sender.init do_withdrawals tmplts_resend_pkts tmplts_resend_secs).msg_start
          { hdr with seq_num := 0 }).tick S1 0) hdata
    rw [List.append_nil] at this
    exact this
  have hfinal : ∀ t : Sender, t = flush (process_sets env
      ⟨hdr, [⟨data1, S1⟩, ⟨data2, S1⟩], sets⟩
      (process_message_begin env
        (Sender.init do_withdrawals tmplts_resend_pkts tmplts_resend_secs)
        ⟨hdr, [⟨data1, S1⟩, ⟨data2, S1⟩], sets⟩) sets) →
      (process_message env (Sender.init do_withdrawals tmplts_resend_pkts tmplts_resend_secs)
        ⟨hdr, [⟨data1, S1⟩, ⟨data2, S1⟩], sets⟩).ops = t.ops ∧
      (process_message env (Sender.init do_withdrawals tmplts_resend_pkts tmplts_resend_secs)
        ⟨hdr, [⟨data1, S1⟩, ⟨data2, S1⟩], sets⟩).emitted = t.emitted ∧
      (process_message env (Sender.init do_withdrawals tmplts_resend_pkts tmplts_resend_secs)
        ⟨hdr, [⟨data1, S1⟩, ⟨data2, S1⟩], sets⟩).m_tsnap = t.m_tsnap := by
    intro t ht
    subst ht
    exact ⟨rfl, rfl, rfl⟩
  obtain ⟨hops, hemitted, htsnap⟩ := hfinal _ rfl
  rw [hwalk] at hops hemitted htsnap
  have hq : Quiet
      (process_templates env
        ((Sender.init do_withdrawals tmplts_resend_pkts tmplts_resend_secs).msg_start
          { hdr with seq_num := 0 }).tick S1 0)
      (flush (sets.foldl Sender.msg_add_set
        (process_templates env
          ((Sender.init do_withdrawals tmplts_resend_pkts tmplts_resend_secs).msg_start
            { hdr with seq_num := 0 }).tick S1 0))) :=
    (quiet_foldl_msg_add_set sets _).quiet_then (quiet_flush _)
  refine ⟨?_, ?_, ?_, ?_, ?_⟩
  · unfold resend_count at *
    rw [hops]
    show resend_count (flush _) = 1
    rw [hq.resend_count_eq, resend_count_process_templates]
    rfl
  · obtain ⟨rest, hr⟩ := process_message_ops_of_due env
      (Sender.init do_withdrawals tmplts_resend_pkts tmplts_resend_secs)
      ⟨hdr, [⟨data1, S1⟩, ⟨data2, S1⟩], sets⟩ ⟨data1, S1⟩ hd hdue
    exact ⟨rest, hr⟩
  · obtain ⟨rnew, hr1, -, hr2⟩ := process_templates_emitted env
      ((Sender.init do_withdrawals tmplts_resend_pkts tmplts_resend_secs).msg_start
        { hdr with seq_num := 0 }).tick S1 0
    obtain ⟨dnew, hd1, hd2, hd3, hd4⟩ := flush_data_sets_emitted sets
      (process_templates env
        ((Sender.init do_withdrawals tmplts_resend_pkts tmplts_resend_secs).msg_start
          { hdr with seq_num := 0 }).tick S1 0) rfl
    have hparts : parts_of_packets rnew = resend_parts env do_withdrawals S1 := by
      rw [hr2]
      rfl
    match dnew, hd1, hd2, hd3, hd4 with
    | [], _, _, hd3, _ => exact absurd (hd3.mp rfl) hsets
    | [p], hd1, _, _, hd4 =>
      refine ⟨rnew, p, ?_, hparts, ?_, (hd4 p (List.mem_singleton.mpr rfl)).1, ?_⟩
      · rw [hemitted, hd1, hr1]
        rfl
      · intro q hq2
        cases hsp : sets_of_parts q.parts with
        | nil => rfl
        | cons d ds =>
          have hmem : d ∈ sets_of_parts (parts_of_packets rnew) :=
            (mem_sets_of_parts d _).mpr ((mem_parts_of_packets _ _).mpr
              ⟨q, hq2, (mem_sets_of_parts d _).mp (by rw [hsp]; exact List.mem_cons_self _ _)⟩)
          rw [hparts, sets_of_parts_resend_parts] at hmem
          exact absurd hmem (by simp)
      · rw [(hd4 p (List.mem_singleton.mpr rfl)).2]
        rfl
    | _ :: _ :: _, _, hd2, _, _ => simp at hd2
  · rw [htsnap, hq.2.2.1]
    rfl
  · rw [process_message_seq_num]
    rfl

/-- Witness of `first_message_two_records`: the two records lie in one data
set; the two template packets of the resend are followed by one packet
holding the data set, all three with sequence number 0. -/
theorem first_message_two_records_witness :
    ([⟨16, 256, 84⟩] : List IpfixSet) ≠ [] ∧
    (∀ d ∈ ([⟨16, 256, 84⟩] : List IpfixSet), isDataSet d = true) ∧
    (process_message exEnv (Sender.init false 0 0)
        ⟨exHdr, [⟨24, 1⟩, ⟨40, 1⟩], [⟨16, 256, 84⟩]⟩).emitted.map
        (fun p => (p.hdr.seq_num, p.parts))
      = [(0, [Part.template ⟨256, 90⟩]), (0, [Part.template ⟨257, 20⟩]),
         (0, [Part.set ⟨16, 256, 84⟩])] ∧
    resend_count (process_message exEnv (Sender.init false 0 0)
        ⟨exHdr, [⟨24, 1⟩, ⟨40, 1⟩], [⟨16, 256, 84⟩]⟩) = 1 ∧
    (process_message exEnv (Sender.init false 0 0)
        ⟨exHdr, [⟨24, 1⟩, ⟨40, 1⟩], [⟨16, 256, 84⟩]⟩).m_seq_num = 2 :=
  ⟨by decide, by decide, by decide,
    (first_message_two_records exEnv false 0 0 exHdr 24 40 1 [⟨16, 256, 84⟩]
      (by decide) (by decide)).1,
    (first_message_two_records exEnv false 0 0 exHdr 24 40 1 [⟨16, 256, 84⟩]
      (by decide) (by decide)).2.2.2.2⟩

end Forwarder
